import Mathlib

/-! Verification of multi-usrp-receive-test: receive loop, file sink, datagram sink, CTimer.

A shallow embedding of `src/main.cpp` (the bounded receive loop of `main`, the
file output block and the udp output block) and of `CTimer::diff` from
`src/CTimer.h`, followed by the properties proved about them.

Modelling conventions.

* A `std::complex<float>` is kept as its object representation: two 32-bit
  words (the bit patterns of the real and the imaginary part). Its bytes in
  memory are the little-endian bytes of the two words, real part first.
* The device (`rx_stream->recv`) is external. A run of the program is driven by
  a script: the list of results the successive `recv` calls give. When the
  script is used up while the loop still wants to receive, the model stops in
  the exit `awaitingRecv`.
* `size_t` counters of the receive loop are natural numbers: `num_acc_samps`
  never exceeds the length of an accumulator vector, so it cannot reach
  `2 ^ 64`. The 32-bit quantities of the sinks (`tbw`, the 4-byte header
  fields, `num_udp_datagrams`) are reduced explicitly.
* Text written by `operator<<` for a `float` or `double` is not computed: the
  rendering of a sample component is the parameter `showFloat`, and rendered
  device settings come in `ChannelInfo`.
-/

namespace MultiUsrp

/-! ## Data model -/

/-- One byte of a file or of a datagram. -/
abbrev Byte := Fin 256

/-- The bit pattern of a 32-bit `float` (or of an `unsigned int`). -/
abbrev Word32 := Fin 4294967296

/-- A `std::complex<float>`: the bit patterns of `real()` and `imag()`. -/
structure Sample where
  re : Word32
  im : Word32
deriving DecidableEq, Repr

/-- Modelled from the spec: the declaration of `uhd::rx_metadata_t::error_code_t`
is not part of the sources; `main` compares `md.error_code` only with
`ERROR_CODE_TIMEOUT` and `ERROR_CODE_NONE`, and the spec classifies a receipt as
None, Timeout or Other. -/
inductive ErrorCode where
  | ERROR_CODE_NONE
  | ERROR_CODE_TIMEOUT
  | ERROR_CODE_OTHER
deriving DecidableEq, Repr

/-- What one call `rx_stream->recv(buff_ptrs, samps_per_buff, md, timeout)` gives:
the returned count, `md.error_code`, and for each channel the samples the
transport writes to the front of that channel's buffer. -/
structure RecvResult where
  num_rx_samps : Nat
  error_code : ErrorCode
  data : List (List Sample)
deriving DecidableEq, Repr

/-- The value of the variable `timeout` (main.cpp:204, 218). -/
inductive RecvTimeout where
  | secondsInFuturePlusTenth
  | tenth
deriving DecidableEq, Repr

/-- The variables of `main` that the receive loop reads and writes.
`recv_calls` is a ghost counter of the `recv` calls issued so far. -/
structure LoopState where
  MultiDeviceBuffer : List (List Sample)
  buffs : List (List Sample)
  timeout : RecvTimeout
  num_acc_samps : Nat
  recv_calls : Nat
deriving DecidableEq, Repr

/-- The value-initialised `std::complex<float>` (0, 0). -/
def zeroSample : Sample := ⟨0, 0⟩

/-- State before the loop (main.cpp:187-206): `MultiDeviceBuffer` resized to
`num_rx_channels` empty vectors, `buffs` holding `num_rx_channels` vectors of
`samps_per_buff` zero samples, `num_acc_samps = 0`. -/
def initState (num_rx_channels samps_per_buff : Nat) : LoopState where
  MultiDeviceBuffer := List.replicate num_rx_channels []
  buffs := List.replicate num_rx_channels (List.replicate samps_per_buff zeroSample)
  timeout := RecvTimeout.secondsInFuturePlusTenth
  num_acc_samps := 0
  recv_calls := 0

/-! ## Receive loop (main.cpp:206-233) -/

/-- Effect of `recv` on one channel buffer: the delivered chunk overwrites the
front of the buffer, the rest of the buffer keeps its previous content. `recv`
is given `samps_per_buff` as the buffer capacity and never writes past it. -/
def recvInto (buf chunk : List Sample) : List Sample :=
  chunk.take buf.length ++ buf.drop chunk.length

/-- Effect of `recv` on all channel buffers `buffs`. -/
def recvAll : List (List Sample) → List (List Sample) → List (List Sample)
  | [], _ => []
  | b :: bs, [] => b :: recvAll bs []
  | b :: bs, c :: cs => recvInto b c :: recvAll bs cs

/-- The copy loop of main.cpp:212-215:
`MultiDeviceBuffer.at(i).insert(MultiDeviceBuffer.at(i).end(),
buffs.at(i).begin(), buffs.at(i).end())` for every channel `i`; both vectors
have `num_rx_channels` entries. -/
def copyToMultiDeviceBuffer (mdb buffs : List (List Sample)) : List (List Sample) :=
  List.zipWith (fun acc b => acc ++ b) mdb buffs

/-- Lines 209-218 of one iteration: the `recv` call, the copy into
`MultiDeviceBuffer`, and `timeout = 0.1`. -/
def receiveAndCopy (r : RecvResult) (st : LoopState) : LoopState :=
  let buffs1 := recvAll st.buffs r.data
  { MultiDeviceBuffer := copyToMultiDeviceBuffer st.MultiDeviceBuffer buffs1
    buffs := buffs1
    timeout := RecvTimeout.tenth
    num_acc_samps := st.num_acc_samps
    recv_calls := st.recv_calls + 1 }

/-- Line 232: `num_acc_samps += num_rx_samps`. -/
def accumulate (r : RecvResult) (st : LoopState) : LoopState :=
  { st with num_acc_samps := st.num_acc_samps + r.num_rx_samps }

/-- How control left the `while` loop. -/
inductive LoopExit where
  | conditionFalse
  | brokeOnTimeout
  | threwReceiverError
  | awaitingRecv
deriving DecidableEq, Repr

/-- The loop `while (num_acc_samps < total_num_samps)` of main.cpp:207-233, run
against the script of `recv` results. -/
def recvLoop (total_num_samps : Nat) : List RecvResult → LoopState → LoopExit × LoopState
  | [], st =>
    if st.num_acc_samps < total_num_samps then (LoopExit.awaitingRecv, st)
    else (LoopExit.conditionFalse, st)
  | r :: rest, st =>
    if st.num_acc_samps < total_num_samps then
      let st1 := receiveAndCopy r st
      if r.error_code = ErrorCode.ERROR_CODE_TIMEOUT then (LoopExit.brokeOnTimeout, st1)
      else if r.error_code ≠ ErrorCode.ERROR_CODE_NONE then (LoopExit.threwReceiverError, st1)
      else recvLoop total_num_samps rest (accumulate r st1)
    else (LoopExit.conditionFalse, st)

/-- The points at which the loop state is observed. -/
inductive ObsPoint where
  | beforeLoop
  | afterAppend
  | afterIteration
  | afterLoop
deriving DecidableEq, Repr

/-- The states the loop goes through, in order: after the copy step of every
iteration, after every complete iteration, and when the loop is left (by its
condition, by `break`, or by the exception). -/
def loopTrace (total_num_samps : Nat) : List RecvResult → LoopState → List (ObsPoint × LoopState)
  | [], st =>
    if st.num_acc_samps < total_num_samps then []
    else [(ObsPoint.afterLoop, st)]
  | r :: rest, st =>
    if st.num_acc_samps < total_num_samps then
      let st1 := receiveAndCopy r st
      (ObsPoint.afterAppend, st1) ::
        (if r.error_code = ErrorCode.ERROR_CODE_TIMEOUT then [(ObsPoint.afterLoop, st1)]
         else if r.error_code ≠ ErrorCode.ERROR_CODE_NONE then [(ObsPoint.afterLoop, st1)]
         else (ObsPoint.afterIteration, accumulate r st1) ::
                loopTrace total_num_samps rest (accumulate r st1))
    else [(ObsPoint.afterLoop, st)]

/-- All observations of a session, the state before the loop included. -/
def sessionTrace (num_rx_channels samps_per_buff total_num_samps : Nat)
    (script : List RecvResult) : List (ObsPoint × LoopState) :=
  (ObsPoint.beforeLoop, initState num_rx_channels samps_per_buff) ::
    loopTrace total_num_samps script (initState num_rx_channels samps_per_buff)

/-- The receive loop started from the initial state. -/
def runLoop (num_rx_channels samps_per_buff total_num_samps : Nat)
    (script : List RecvResult) : LoopExit × LoopState :=
  recvLoop total_num_samps script (initState num_rx_channels samps_per_buff)

/-- The samples `recv` delivered to channel `ch` over the calls of a script:
the first `num_rx_samps` samples of each call's chunk. -/
def delivered (ch : Nat) (script : List RecvResult) : List Sample :=
  match script with
  | [] => []
  | r :: rest => (r.data.getD ch []).take r.num_rx_samps ++ delivered ch rest

/-- Sum of the counts returned by the `recv` calls of a script. -/
def deliveredCount (script : List RecvResult) : Nat :=
  (script.map RecvResult.num_rx_samps).sum

/-! ## After the loop (main.cpp:239-243) -/

/-- The test `if (num_acc_samps < total_num_samps)` after the loop: `true` is
the exit "Receive timeout before all samples received..." with `return 0`. -/
def receiveTimeoutExit (total_num_samps : Nat) (st : LoopState) : Bool :=
  decide (st.num_acc_samps < total_num_samps)

/-! ## Byte layout of samples -/

/-- The four bytes of a 32-bit word, least significant first. -/
def le32 (w : Word32) : List Byte :=
  [Fin.ofNat (w.val % 256), Fin.ofNat (w.val / 256 % 256),
   Fin.ofNat (w.val / 65536 % 256), Fin.ofNat (w.val / 16777216 % 256)]

/-- The 32-bit word stored in four bytes, least significant first. -/
def decode32 (b0 b1 b2 b3 : Byte) : Word32 :=
  ⟨b0.val + 256 * b1.val + 65536 * b2.val + 16777216 * b3.val, by omega⟩

/-- The eight bytes of a sample in memory (`sizeof(std::complex<float>) = 8`). -/
def sampleBytes (s : Sample) : List Byte :=
  le32 s.re ++ le32 s.im

/-- The bytes of a contiguous run of samples (`vector::data()`). -/
def bufferBytes : List Sample → List Byte
  | [] => []
  | s :: rest => sampleBytes s ++ bufferBytes rest

/-- Reading a byte sequence back as consecutive 8-byte samples; fewer than eight
trailing bytes form no sample. -/
def decodeSamples : List Byte → List Sample
  | b0 :: b1 :: b2 :: b3 :: b4 :: b5 :: b6 :: b7 :: rest =>
    ⟨decode32 b0 b1 b2 b3, decode32 b4 b5 b6 b7⟩ :: decodeSamples rest
  | _ => []

/-! ## File output (main.cpp:246-295) -/

/-- The device settings `main` prints into the meta file, as the text the
external calls (`get_usrp_rx_info`, `get_rx_freq`, ...) render to. -/
structure ChannelInfo where
  mboard_id : String
  mboard_serial : String
  mboard_name : String
  rx_id : String
  rx_subdev_name : String
  rx_subdev_spec : String
  rx_freq_MHz : String
  rx_rate_MHz : String
  rx_gain_dB : String
  rx_antenna : String
deriving DecidableEq, Repr

/-- The thirteen metadata lines of main.cpp:256-268. -/
def metaHeader (ch total_num_samps : Nat) (info : ChannelInfo) : List String :=
  [ "channel              : " ++ toString ch,
    "mboard id            : " ++ info.mboard_id,
    "mboard_serial        : " ++ info.mboard_serial,
    "mboard_name          : " ++ info.mboard_name,
    "rx_id                : " ++ info.rx_id,
    "rx_subdev_name       : " ++ info.rx_subdev_name,
    "rx_subdev_spec       : " ++ info.rx_subdev_spec,
    "total samples        : " ++ toString total_num_samps,
    "sample size          : " ++ toString 8,
    "RX frequency (MHz)   : " ++ info.rx_freq_MHz,
    "RX sample rate (MHz) : " ++ info.rx_rate_MHz,
    "RX gain (dB)         : " ++ info.rx_gain_dB,
    "RX antenna           : " ++ info.rx_antenna ]

/-- One line of the sample dump (main.cpp:281): `i << " " << real << " " << imag`. -/
def sampleLine (showFloat : Word32 → String) (i : Nat) (s : Sample) : String :=
  toString i ++ " " ++ showFloat s.re ++ " " ++ showFloat s.im

/-- The dump loop `for (i = ...; i < ...; ++i) ofs << ... MultiDeviceBuffer.at(ch).at(i) ...`
with `count` iterations left at index `i`; `none` when `.at(i)` throws
`std::out_of_range`. -/
def metaDump (showFloat : Word32 → String) (buf : List Sample) : Nat → Nat → Option (List String)
  | 0, _ => some []
  | count + 1, i =>
    match buf.get? i with
    | none => none
    | some s => (metaDump showFloat buf count (i + 1)).map (fun ls => sampleLine showFloat i s :: ls)

/-- The sample lines of the meta file (main.cpp:279-281). -/
def metaSampleLines (showFloat : Word32 → String) (total_num_samps : Nat) (buf : List Sample) :
    Option (List String) :=
  if total_num_samps < 16000 then metaDump showFloat buf total_num_samps 0 else some []

/-- The content of the binary file (main.cpp:291): `ofs_binary.write` of
`sizeof(sample) * total_num_samps` bytes starting at `data()`; `none` when that
range runs past the vector's storage. -/
def binaryFile (total_num_samps : Nat) (buf : List Sample) : Option (List Byte) :=
  if total_num_samps ≤ buf.length then some ((bufferBytes buf).take (8 * total_num_samps))
  else none

/-- The two files written for one channel. -/
structure ChannelFiles where
  metaName : String
  metaLines : List String
  binaryName : String
  binaryBytes : List Byte
deriving DecidableEq, Repr

/-- What the file output block produces: the files, and the final value of the
`unsigned int tbw`. -/
structure FileOutput where
  files : List ChannelFiles
  tbw : Nat
deriving DecidableEq, Repr

/-- Line 289: `tbw += sizeof(sample) * total_num_samps`, the product computed in
`size_t` and the sum stored back into the 32-bit `tbw`. -/
def tbwAdd (tbw total_num_samps : Nat) : Nat :=
  (tbw + 8 * total_num_samps % 2 ^ 64) % 2 ^ 64 % 2 ^ 32

/-- The body of the channel loop of the file output for channel `ch`. -/
def writeChannel ( filename_prefix : String) (showFloat : Word32 → String)
    (info : Nat → ChannelInfo) (total_num_samps ch : Nat) (buf : List Sample) :
    Option ChannelFiles :=
  match metaSampleLines showFloat total_num_samps buf, binaryFile total_num_samps buf with
  | some ls, some bytes =>
    some { metaName := filename_prefix ++ "ch_" ++ toString ch ++ "_meta"
           metaLines := metaHeader ch total_num_samps (info ch) ++ ls
           binaryName := filename_prefix ++ "ch_" ++ toString ch ++ "_binary"
           binaryBytes := bytes }
  | _, _ => none

/-- The loop `for (ch = ...; ch < num_rx_channels; ++ch)` of the file output with
`count` channels left at channel `ch` and the current `tbw`. -/
def fileChannels ( filename_prefix : String) (showFloat : Word32 → String)
    (info : Nat → ChannelInfo) (total_num_samps : Nat) (mdb : List (List Sample)) :
    Nat → Nat → Nat → Option FileOutput
  | 0, _, tbw => some { files := [], tbw := tbw }
  | count + 1, ch, tbw =>
    match mdb.get? ch with
    | none => none
    | some buf =>
      match writeChannel filename_prefix showFloat info total_num_samps ch buf with
      | none => none
      | some f =>
        (fileChannels filename_prefix showFloat info total_num_samps mdb count (ch + 1)
            (tbwAdd tbw total_num_samps)).map
          (fun out => { files := f :: out.files, tbw := out.tbw })

/-- The file output block: `tbw = 0`, then all channels in index order. -/
def fileOutput ( filename_prefix : String) (showFloat : Word32 → String)
    (info : Nat → ChannelInfo) (num_rx_channels total_num_samps : Nat)
    (mdb : List (List Sample)) : Option FileOutput :=
  fileChannels filename_prefix showFloat info total_num_samps mdb num_rx_channels 0 0

/-! ## Datagram output (main.cpp:298-330) -/

/-- One `udp_xport->send` call: the bytes of the datagram. -/
abbrev Datagram := List Byte

/-- The number of low bits of `n` that do not fit a 24-bit significand
(`fuel` bounds the search; 64 is enough for a `size_t`). -/
def droppedBits : Nat → Nat → Nat
  | 0, _ => 0
  | fuel + 1, n => if n < 16777216 then 0 else droppedBits fuel (n / 2) + 1

/-- The value of `(float)n` for a `size_t` `n`: `n` rounded to 24 significant
bits, to nearest, ties to the even significand. The result is an integer. -/
def floatOfNat (n : Nat) : Nat :=
  let e := droppedBits 64 n
  let q := n / 2 ^ e
  let r := n % 2 ^ e
  if 2 * r < 2 ^ e then q * 2 ^ e
  else if 2 ^ e < 2 * r then (q + 1) * 2 ^ e
  else if q % 2 = 0 then q * 2 ^ e
  else (q + 1) * 2 ^ e

/-- The constant `num_samps_per_datagram = 256` (main.cpp:311). -/
def num_samps_per_datagram : Nat := 256

/-- Line 314: `floor((float)total_num_samps / (float)(num_samps_per_datagram))`
converted to `unsigned int`. Dividing a float by 256 is exact, so the floor is
the integer quotient of the rounded value; `none` when the value does not fit
an `unsigned int` (the conversion is then undefined). -/
def num_udp_datagrams (total_num_samps : Nat) : Option Nat :=
  let q := floatOfNat total_num_samps / num_samps_per_datagram
  if q < 2 ^ 32 then some q else none

/-- The eight bytes of a `size_t` in memory, least significant first. -/
def sizeBytes (n : Nat) : List Byte :=
  [Fin.ofNat (n % 256), Fin.ofNat (n / 2 ^ 8 % 256), Fin.ofNat (n / 2 ^ 16 % 256),
   Fin.ofNat (n / 2 ^ 24 % 256), Fin.ofNat (n / 2 ^ 32 % 256), Fin.ofNat (n / 2 ^ 40 % 256),
   Fin.ofNat (n / 2 ^ 48 % 256), Fin.ofNat (n / 2 ^ 56 % 256)]

/-- The four bytes of an `unsigned int` in memory. -/
def uintBytes (n : Nat) : List Byte :=
  le32 (Fin.ofNat n)

/-- The three header sends of main.cpp:305-315: 4 bytes at `&num_rx_channels`,
4 bytes at `&total_num_samps` (the first four of its eight), 4 bytes at
`&num_udp_datagrams`. -/
def udpHeader (num_rx_channels total_num_samps n : Nat) : List Datagram :=
  [uintBytes num_rx_channels, (sizeBytes total_num_samps).take 4, uintBytes n]

/-- The inner loop of main.cpp:321-328 with `count` datagrams left and
`ptr_to_device_buffer` at sample offset `off`; `none` when a send reads past
the vector's storage. -/
def channelDatagrams (buf : List Sample) : Nat → Nat → Option (List Datagram)
  | 0, _ => some []
  | count + 1, off =>
    if off + num_samps_per_datagram ≤ buf.length then
      (channelDatagrams buf count (off + num_samps_per_datagram)).map
        (fun ds => bufferBytes ((buf.drop off).take num_samps_per_datagram) :: ds)
    else none

/-- The outer loop of main.cpp:318-329 with `count` channels left at `channel`. -/
def udpPayload (mdb : List (List Sample)) (n : Nat) : Nat → Nat → Option (List Datagram)
  | 0, _ => some []
  | count + 1, channel =>
    match mdb.get? channel with
    | none => none
    | some buf =>
      match channelDatagrams buf n 0 with
      | none => none
      | some ds => (udpPayload mdb n count (channel + 1)).map (fun rest => ds ++ rest)

/-- The udp output block: all `send` calls in order. -/
def udpOutput (num_rx_channels total_num_samps : Nat) (mdb : List (List Sample)) :
    Option (List Datagram) :=
  match num_udp_datagrams total_num_samps with
  | none => none
  | some n =>
    (udpPayload mdb n num_rx_channels 0).map
      (fun p => udpHeader num_rx_channels total_num_samps n ++ p)

/-! ## The program after device setup -/

/-- Whether a sink ran, and with what result. -/
inductive SinkRun (α : Type) where
  | skipped
  | faulted
  | wrote (out : α)
deriving DecidableEq, Repr

/-- Lift the result of a sink that ran. -/
def SinkRun.ofOption {α : Type} : Option α → SinkRun α
  | none => SinkRun.faulted
  | some a => SinkRun.wrote a

/-- How `main` ends. -/
inductive ProgramResult where
  | awaitingRecv (st : LoopState)
  | receiverError (st : LoopState)
  | receiveTimeout (st : LoopState)
  | done (st : LoopState) (files : SinkRun FileOutput) (udp : SinkRun (List Datagram))
deriving DecidableEq, Repr

/-- The part of `main` from line 187 on: the receive loop, the timeout exit, the
file output when `filename_prefix` is not empty, the udp output when
`udp_dst_addr` is not empty. -/
def main ( filename_prefix udp_dst_addr : String) (showFloat : Word32 → String)
    (info : Nat → ChannelInfo) (num_rx_channels samps_per_buff total_num_samps : Nat)
    (script : List RecvResult) : ProgramResult :=
  match runLoop num_rx_channels samps_per_buff total_num_samps script with
  | (LoopExit.awaitingRecv, st) => ProgramResult.awaitingRecv st
  | (LoopExit.threwReceiverError, st) => ProgramResult.receiverError st
  | (_, st) =>
    if receiveTimeoutExit total_num_samps st then ProgramResult.receiveTimeout st
    else
      ProgramResult.done st
        (if filename_prefix ≠ "" then
          SinkRun.ofOption (fileOutput filename_prefix showFloat info num_rx_channels
            total_num_samps st.MultiDeviceBuffer)
         else SinkRun.skipped)
        (if udp_dst_addr ≠ "" then
          SinkRun.ofOption (udpOutput num_rx_channels total_num_samps st.MultiDeviceBuffer)
         else SinkRun.skipped)

/-! ## CTimer::diff (CTimer.h:10-25) -/

/-- A `struct timespec`. -/
structure Timespec where
  tv_sec : Int
  tv_nsec : Int
deriving DecidableEq, Repr

/-- The private member function `CTimer::diff(start, end)`. -/
def diff (start «end» : Timespec) : Timespec :=
  if «end».tv_nsec - start.tv_nsec < 0 then
    { tv_sec := «end».tv_sec - start.tv_sec - 1
      tv_nsec := 1000000000 + «end».tv_nsec - start.tv_nsec }
  else
    { tv_sec := «end».tv_sec - start.tv_sec
      tv_nsec := «end».tv_nsec - start.tv_nsec }

/-! ## Shape of the loop state -/

/-- The shape of the loop state: `num_rx_channels` accumulators and buffers,
every buffer of `samps_per_buff` samples, every accumulator of
`recv_calls * samps_per_buff` samples. -/
def Shape (num_rx_channels samps_per_buff : Nat) (st : LoopState) : Prop :=
  st.MultiDeviceBuffer.length = num_rx_channels ∧
  st.buffs.length = num_rx_channels ∧
  (∀ b ∈ st.buffs, b.length = samps_per_buff) ∧
  (∀ a ∈ st.MultiDeviceBuffer, a.length = st.recv_calls * samps_per_buff)

/-! ## Closed forms used to state the sink lemmas -/

/-- The sample lines of a meta file in closed form: below the threshold one line
per index `0 .. total_num_samps - 1`, none otherwise. -/
def dumpLines (showFloat : Word32 → String) (total_num_samps : Nat) (buf : List Sample) :
    List String :=
  if total_num_samps < 16000 then
    (List.range total_num_samps).map (fun i => sampleLine showFloat i (buf.getD i zeroSample))
  else []

/-- The two files of channel `ch` in closed form, for an accumulator `buf` that has
at least `total_num_samps` samples. -/
def channelFilesOf ( filename_prefix : String) (showFloat : Word32 → String)
    (info : Nat → ChannelInfo) (total_num_samps ch : Nat) (buf : List Sample) : ChannelFiles :=
  { metaName := filename_prefix ++ "ch_" ++ toString ch ++ "_meta"
    metaLines := metaHeader ch total_num_samps (info ch) ++ dumpLines showFloat total_num_samps buf
    binaryName := filename_prefix ++ "ch_" ++ toString ch ++ "_binary"
    binaryBytes := bufferBytes (buf.take total_num_samps) }

/-- The payload datagrams of one channel in closed form: `n` datagrams, the one
at sample offset `o = 0, 256, 512, ...` holding the 256 samples from `o` on. -/
def channelPayloadOf (buf : List Sample) (n : Nat) : List Datagram :=
  (List.range' 0 n num_samps_per_datagram).map
    (fun o => bufferBytes ((buf.drop o).take num_samps_per_datagram))

/-! ## Reading the datagrams back -/

/-- The unsigned value a receiver reads from a 4-byte datagram (native byte
order, least significant byte first); 0 for a datagram of another length. -/
def fieldValue : Datagram → Nat
  | [b0, b1, b2, b3] => (decode32 b0 b1 b2 b3).val
  | _ => 0

/-- The datagrams a run of the program sent, when its udp output ran to the end. -/
def udpSends : ProgramResult → Option (List Datagram)
  | ProgramResult.done _ _ (SinkRun.wrote dgs) => some dgs
  | _ => none

/-! ## Concrete inputs used below -/

/-- A sample with the given bit patterns. -/
def smp (re im : Nat) : Sample := ⟨Fin.ofNat re, Fin.ofNat im⟩

/-- A `recv` result without error that gives every one of `channels` channels
the same chunk. -/
def okRecv (channels : Nat) (chunk : List Sample) : RecvResult :=
  { num_rx_samps := chunk.length
    error_code := ErrorCode.ERROR_CODE_NONE
    data := List.replicate channels chunk }

/-- A `recv` call that times out without delivering a sample. -/
def timeoutRecv (channels : Nat) : RecvResult :=
  { num_rx_samps := 0
    error_code := ErrorCode.ERROR_CODE_TIMEOUT
    data := List.replicate channels [] }

/-- A `recv` call on two channels that reports a device error after writing
one sample per channel. -/
def errorRecvExample : RecvResult :=
  { num_rx_samps := 1
    error_code := ErrorCode.ERROR_CODE_OTHER
    data := [[smp 7 8], [smp 9 10]] }

/-- A rendering of sample components for concrete runs: the decimal bit pattern. -/
def showBits (w : Word32) : String := toString w.val

/-- Device settings for concrete runs. -/
def noInfo (_ch : Nat) : ChannelInfo :=
  { mboard_id := "", mboard_serial := "", mboard_name := "", rx_id := "",
    rx_subdev_name := "", rx_subdev_spec := "", rx_freq_MHz := "", rx_rate_MHz := "",
    rx_gain_dB := "", rx_antenna := "" }

/-! ## Properties of the receive loop -/

theorem recvInto_length (buf chunk : List Sample) :
    (recvInto buf chunk).length = buf.length := by
  simp only [recvInto, List.length_append, List.length_take, List.length_drop]
  omega

theorem recvAll_length (bs cs : List (List Sample)) :
    (recvAll bs cs).length = bs.length := by
  induction bs generalizing cs with
  | nil => simp [recvAll]
  | cons b bs ih =>
    cases cs with
    | nil => simp [recvAll, ih]
    | cons c cs => simp [recvAll, ih]

theorem recvAll_all_length (spb : Nat) (bs cs : List (List Sample))
    (h : ∀ b ∈ bs, b.length = spb) : ∀ b ∈ recvAll bs cs, b.length = spb := by
  induction bs generalizing cs with
  | nil => simp [recvAll]
  | cons b bs ih =>
    have hb : b.length = spb := h b (List.mem_cons_self _ _)
    have hbs : ∀ x ∈ bs, x.length = spb := fun x hx => h x (List.mem_cons_of_mem _ hx)
    cases cs with
    | nil =>
      intro x hx
      simp only [recvAll, List.mem_cons] at hx
      rcases hx with rfl | hx
      · exact hb
      · exact ih [] hbs x hx
    | cons c cs =>
      intro x hx
      simp only [recvAll, List.mem_cons] at hx
      rcases hx with rfl | hx
      · rw [recvInto_length]; exact hb
      · exact ih cs hbs x hx

theorem copyToMultiDeviceBuffer_length (mdb buffs : List (List Sample))
    (h : mdb.length = buffs.length) :
    (copyToMultiDeviceBuffer mdb buffs).length = mdb.length := by
  simp [copyToMultiDeviceBuffer, List.length_zipWith, h]

theorem copyToMultiDeviceBuffer_all_length (m spb : Nat) (mdb buffs : List (List Sample))
    (h1 : ∀ a ∈ mdb, a.length = m) (h2 : ∀ b ∈ buffs, b.length = spb) :
    ∀ x ∈ copyToMultiDeviceBuffer mdb buffs, x.length = m + spb := by
  induction mdb generalizing buffs with
  | nil => simp [copyToMultiDeviceBuffer]
  | cons a mdb ih =>
    cases buffs with
    | nil => simp [copyToMultiDeviceBuffer]
    | cons b buffs =>
      intro x hx
      simp only [copyToMultiDeviceBuffer, List.zipWith_cons_cons, List.mem_cons] at hx
      rcases hx with rfl | hx
      · rw [List.length_append, h1 a (List.mem_cons_self _ _), h2 b (List.mem_cons_self _ _)]
      · exact ih buffs (fun y hy => h1 y (List.mem_cons_of_mem _ hy))
          (fun y hy => h2 y (List.mem_cons_of_mem _ hy)) x hx

theorem shape_initState (N spb : Nat) : Shape N spb (initState N spb) := by
  refine ⟨by simp [initState], by simp [initState], ?_, ?_⟩
  · intro b hb
    simp only [initState] at hb
    rw [List.eq_of_mem_replicate hb, List.length_replicate]
  · intro a ha
    simp only [initState] at ha
    rw [List.eq_of_mem_replicate ha]
    simp [initState]

theorem shape_receiveAndCopy (N spb : Nat) (r : RecvResult) (st : LoopState)
    (h : Shape N spb st) : Shape N spb (receiveAndCopy r st) := by
  obtain ⟨h1, h2, h3, h4⟩ := h
  have hb : (recvAll st.buffs r.data).length = N := by rw [recvAll_length, h2]
  have hb2 := recvAll_all_length spb st.buffs r.data h3
  refine ⟨?_, hb, hb2, ?_⟩
  · show (copyToMultiDeviceBuffer st.MultiDeviceBuffer (recvAll st.buffs r.data)).length = N
    rw [copyToMultiDeviceBuffer_length _ _ (by rw [h1, hb]), h1]
  · intro a ha
    have := copyToMultiDeviceBuffer_all_length (st.recv_calls * spb) spb st.MultiDeviceBuffer
      (recvAll st.buffs r.data) h4 hb2 a ha
    show a.length = (st.recv_calls + 1) * spb
    rw [this, Nat.add_mul, Nat.one_mul]

theorem shape_accumulate (N spb : Nat) (r : RecvResult) (st : LoopState)
    (h : Shape N spb st) : Shape N spb (accumulate r st) := h

theorem shape_recvLoop (N spb T : Nat) (script : List RecvResult) (st : LoopState)
    (h : Shape N spb st) : Shape N spb (recvLoop T script st).2 := by
  induction script generalizing st with
  | nil =>
    simp only [recvLoop]
    split <;> exact h
  | cons r rest ih =>
    simp only [recvLoop]
    split
    · split
      · exact shape_receiveAndCopy N spb r st h
      · split
        · exact shape_receiveAndCopy N spb r st h
        · exact ih _ (shape_accumulate N spb r _ (shape_receiveAndCopy N spb r st h))
    · exact h

theorem shape_loopTrace (N spb T : Nat) (script : List RecvResult) (st : LoopState)
    (h : Shape N spb st) : ∀ obs ∈ loopTrace T script st, Shape N spb obs.2 := by
  induction script generalizing st with
  | nil =>
    intro obs hobs
    simp only [loopTrace] at hobs
    split at hobs
    · simp at hobs
    · simp only [List.mem_singleton] at hobs
      subst hobs
      exact h
  | cons r rest ih =>
    intro obs hobs
    have h1 := shape_receiveAndCopy N spb r st h
    simp only [loopTrace] at hobs
    split at hobs
    · simp only [List.mem_cons] at hobs
      rcases hobs with rfl | hobs
      · exact h1
      · split at hobs
        · simp only [List.mem_singleton] at hobs
          subst hobs
          exact h1
        · split at hobs
          · simp only [List.mem_singleton] at hobs
            subst hobs
            exact h1
          · simp only [List.mem_cons] at hobs
            rcases hobs with rfl | hobs
            · exact shape_accumulate N spb r _ h1
            · exact ih _ (shape_accumulate N spb r _ h1) obs hobs
    · simp only [List.mem_singleton] at hobs
      subst hobs
      exact h

/-- The trace ends in the state the loop leaves, whenever the loop is left. -/
theorem loopTrace_getLast (T : Nat) (script : List RecvResult) (st : LoopState)
    (h : (recvLoop T script st).1 ≠ LoopExit.awaitingRecv) :
    (loopTrace T script st).getLast? = some (ObsPoint.afterLoop, (recvLoop T script st).2) := by
  induction script generalizing st with
  | nil =>
    simp only [recvLoop] at h ⊢
    simp only [loopTrace]
    split
    · rename_i hlt
      simp [hlt] at h
    · simp
  | cons r rest ih =>
    simp only [recvLoop] at h ⊢
    simp only [loopTrace]
    split
    · rename_i hlt
      simp only [hlt, if_true] at h
      split
      · simp
      · split
        · simp
        · rename_i h1 h2
          simp only [h1, h2, if_false] at h
          have := ih _ h
          cases hl : loopTrace T rest (accumulate r (receiveAndCopy r st)) with
          | nil => rw [hl] at this; simp at this
          | cons x xs =>
            rw [hl] at this
            rw [List.getLast?_cons_cons, List.getLast?_cons_cons]
            exact this
    · simp

/-- When the loop is left through its condition, the target is reached. -/
theorem recvLoop_conditionFalse (T : Nat) (script : List RecvResult) (st : LoopState)
    (h : (recvLoop T script st).1 = LoopExit.conditionFalse) :
    T ≤ (recvLoop T script st).2.num_acc_samps := by
  induction script generalizing st with
  | nil =>
    simp only [recvLoop] at h ⊢
    split
    · rename_i hlt
      simp [hlt] at h
    · show T ≤ st.num_acc_samps
      omega
  | cons r rest ih =>
    simp only [recvLoop] at h ⊢
    split
    · rename_i hlt
      simp only [hlt, if_true] at h
      split
      · rename_i h1
        simp [h1] at h
      · split
        · rename_i h1 h2
          simp [h1, h2] at h
        · rename_i h1 h2
          simp only [h1, h2, if_false] at h
          exact ih _ h
    · show T ≤ st.num_acc_samps
      omega

theorem ceilDiv_step (d k : Nat) (hd : 0 < d) (hk : 1 ≤ k) :
    (d + k - 1) / k = (d - k + k - 1) / k + 1 := by
  by_cases hdk : k ≤ d
  · have e : d + k - 1 = (d - k + k - 1) + k := by omega
    rw [e, Nat.add_div_right _ (by omega)]
  · have e1 : d - k + k - 1 = k - 1 := by omega
    have e2 : (k - 1) / k = 0 := Nat.div_eq_of_lt (by omega)
    have lo : 1 * k ≤ d + k - 1 := by omega
    have hi : d + k - 1 < Nat.succ 1 * k := by
      show d + k - 1 < 2 * k
      omega
    rw [e1, e2]
    exact Nat.div_eq_of_lt_le lo hi

/-- A transport that gives `k` samples and no error on every call: the loop runs
`ceil((T - num_acc_samps) / k)` more iterations and is left by its condition. -/
theorem recvLoop_uniform (T k : Nat) (hk : 1 ≤ k) (script : List RecvResult)
    (hs : ∀ r ∈ script, r.num_rx_samps = k ∧ r.error_code = ErrorCode.ERROR_CODE_NONE)
    (st : LoopState)
    (hlen : (T - st.num_acc_samps + k - 1) / k ≤ script.length) :
    (recvLoop T script st).1 = LoopExit.conditionFalse ∧
    (recvLoop T script st).2.recv_calls
      = st.recv_calls + (T - st.num_acc_samps + k - 1) / k ∧
    (recvLoop T script st).2.num_acc_samps
      = st.num_acc_samps + k * ((T - st.num_acc_samps + k - 1) / k) := by
  induction script generalizing st with
  | nil =>
    by_cases hlt : st.num_acc_samps < T
    · have hstep := ceilDiv_step (T - st.num_acc_samps) k (by omega) hk
      rw [hstep] at hlen
      exact absurd hlen (Nat.not_succ_le_zero _)
    · have e : T - st.num_acc_samps + k - 1 = k - 1 := by omega
      simp only [recvLoop, hlt, if_false, e, Nat.div_eq_of_lt (show k - 1 < k by omega)]
      simp
  | cons r rest ih =>
    obtain ⟨hr1, hr2⟩ := hs r (List.mem_cons_self _ _)
    by_cases hlt : st.num_acc_samps < T
    · have hstep := ceilDiv_step (T - st.num_acc_samps) k (by omega) hk
      have hne : ¬ r.error_code = ErrorCode.ERROR_CODE_TIMEOUT := by rw [hr2]; decide
      have hnn : ¬ r.error_code ≠ ErrorCode.ERROR_CODE_NONE := by simp [hr2]
      simp only [recvLoop, hlt, if_true, hne, hnn, if_false]
      have e2 : (accumulate r (receiveAndCopy r st)).num_acc_samps = st.num_acc_samps + k := by
        simp [accumulate, receiveAndCopy, hr1]
      have e3 : (accumulate r (receiveAndCopy r st)).recv_calls = st.recv_calls + 1 := by
        simp [accumulate, receiveAndCopy]
      have e4 : T - (st.num_acc_samps + k) = T - st.num_acc_samps - k := by omega
      have := ih (fun x hx => hs x (List.mem_cons_of_mem _ hx)) (accumulate r (receiveAndCopy r st))
        (by rw [e2, e4]; simp only [List.length_cons] at hlen; omega)
      rw [e2, e3, e4] at this
      obtain ⟨t1, t2, t3⟩ := this
      refine ⟨t1, ?_, ?_⟩
      · rw [t2, hstep]; omega
      · rw [t3, hstep, Nat.mul_add]; omega
    · have e : T - st.num_acc_samps + k - 1 = k - 1 := by omega
      simp only [recvLoop, hlt, if_false, e, Nat.div_eq_of_lt (show k - 1 < k by omega)]
      simp

/-- Claim C1 (completion). When every `recv` call gives exactly `k` samples
(`1 ≤ k ≤ samps_per_buff`) with error code NONE, and the transport answers at
least `ceil(T / k)` calls, the loop is left through its condition after exactly
`ceil(T / k)` calls with `num_acc_samps ≥ T`, the timeout exit is not taken, and
each of the `num_rx_channels` accumulators has at least `T` samples. -/
theorem completion_uniform_delivery (N spb T k : Nat) (hk1 : 1 ≤ k) (hk2 : k ≤ spb)
    (script : List RecvResult)
    (hs : ∀ r ∈ script, r.num_rx_samps = k ∧ r.error_code = ErrorCode.ERROR_CODE_NONE)
    (hlen : (T + k - 1) / k ≤ script.length) :
    (runLoop N spb T script).1 = LoopExit.conditionFalse ∧
    (runLoop N spb T script).2.recv_calls = (T + k - 1) / k ∧
    T ≤ (runLoop N spb T script).2.num_acc_samps ∧
    receiveTimeoutExit T (runLoop N spb T script).2 = false ∧
    (runLoop N spb T script).2.MultiDeviceBuffer.length = N ∧
    ∀ a ∈ (runLoop N spb T script).2.MultiDeviceBuffer, T ≤ a.length := by
  have h0 : (initState N spb).num_acc_samps = 0 := rfl
  have h1 : (initState N spb).recv_calls = 0 := rfl
  obtain ⟨t1, t2, t3⟩ := recvLoop_uniform T k hk1 script hs (initState N spb)
    (by rw [h0, Nat.sub_zero]; exact hlen)
  rw [h0, h1, Nat.sub_zero, Nat.zero_add] at t2
  rw [h0, Nat.sub_zero, Nat.zero_add] at t3
  have hT := recvLoop_conditionFalse T script (initState N spb) t1
  obtain ⟨s1, _, _, s4⟩ := shape_recvLoop N spb T script (initState N spb) (shape_initState N spb)
  refine ⟨t1, t2, hT, ?_, s1, ?_⟩
  · simp only [receiveTimeoutExit, runLoop, decide_eq_false_iff_not]
    omega
  · intro a ha
    have e := s4 a ha
    simp only [runLoop] at ha ⊢
    rw [e, t2]
    rw [t3] at hT
    calc T ≤ k * ((T + k - 1) / k) := hT
      _ ≤ spb * ((T + k - 1) / k) := Nat.mul_le_mul_right _ hk2
      _ = (T + k - 1) / k * spb := Nat.mul_comm _ _

/-- Instance of claim C1: two channels, buffers of 4 samples, target 10, every
call giving 3 samples: 4 calls, 12 samples counted, 16 samples per accumulator. -/
theorem completion_uniform_delivery_witness :
    ((1 ≤ 3 ∧ 3 ≤ 4) ∧
     (∀ r ∈ List.replicate 5 (okRecv 2 [smp 1 2, smp 3 4, smp 5 6]),
        r.num_rx_samps = 3 ∧ r.error_code = ErrorCode.ERROR_CODE_NONE) ∧
     (10 + 3 - 1) / 3 ≤ (List.replicate 5 (okRecv 2 [smp 1 2, smp 3 4, smp 5 6])).length) ∧
    ((runLoop 2 4 10 (List.replicate 5 (okRecv 2 [smp 1 2, smp 3 4, smp 5 6]))).1
        = LoopExit.conditionFalse ∧
     (runLoop 2 4 10 (List.replicate 5 (okRecv 2 [smp 1 2, smp 3 4, smp 5 6]))).2.recv_calls
        = (10 + 3 - 1) / 3 ∧
     10 ≤ (runLoop 2 4 10 (List.replicate 5 (okRecv 2 [smp 1 2, smp 3 4, smp 5 6]))).2.num_acc_samps ∧
     receiveTimeoutExit 10
        (runLoop 2 4 10 (List.replicate 5 (okRecv 2 [smp 1 2, smp 3 4, smp 5 6]))).2 = false ∧
     (runLoop 2 4 10
        (List.replicate 5 (okRecv 2 [smp 1 2, smp 3 4, smp 5 6]))).2.MultiDeviceBuffer.length = 2 ∧
     ∀ a ∈ (runLoop 2 4 10
        (List.replicate 5 (okRecv 2 [smp 1 2, smp 3 4, smp 5 6]))).2.MultiDeviceBuffer,
        10 ≤ a.length) :=
  ⟨⟨⟨by decide, by decide⟩, by decide, by decide⟩,
   completion_uniform_delivery 2 4 10 3 (by decide) (by decide)
     (List.replicate 5 (okRecv 2 [smp 1 2, smp 3 4, smp 5 6])) (by decide) (by decide)⟩

/-- Claim C4 (lock-step). At every observation point of a session (before the
loop, after the copy step of every `recv` call, after every iteration, and when
the loop is left by its condition, by the timeout `break` or by the receiver
error), `MultiDeviceBuffer` has `num_rx_channels` accumulators and any two of
them have the same length, namely `recv_calls * samps_per_buff`. -/
theorem lockstep_at_every_observation (N spb T : Nat) (script : List RecvResult)
    (obs : ObsPoint × LoopState) (hobs : obs ∈ sessionTrace N spb T script) :
    obs.2.MultiDeviceBuffer.length = N ∧
    (∀ a ∈ obs.2.MultiDeviceBuffer, ∀ b ∈ obs.2.MultiDeviceBuffer, a.length = b.length) ∧
    (∀ a ∈ obs.2.MultiDeviceBuffer, a.length = obs.2.recv_calls * spb) := by
  have hshape : Shape N spb obs.2 := by
    simp only [sessionTrace, List.mem_cons] at hobs
    rcases hobs with rfl | hobs
    · exact shape_initState N spb
    · exact shape_loopTrace N spb T script _ (shape_initState N spb) obs hobs
  obtain ⟨h1, _, _, h4⟩ := hshape
  exact ⟨h1, fun a ha b hb => by rw [h4 a ha, h4 b hb], h4⟩

/-- Instance of claim C4: the state in which a two-channel session is left by
a receiver error on its second `recv` call. -/
theorem lockstep_at_every_observation_witness :
    (ObsPoint.afterLoop, receiveAndCopy errorRecvExample
        (accumulate (okRecv 2 [smp 1 2, smp 3 4])
          (receiveAndCopy (okRecv 2 [smp 1 2, smp 3 4]) (initState 2 3))))
      ∈ sessionTrace 2 3 5 [okRecv 2 [smp 1 2, smp 3 4], errorRecvExample] ∧
    ((ObsPoint.afterLoop, receiveAndCopy errorRecvExample
        (accumulate (okRecv 2 [smp 1 2, smp 3 4])
          (receiveAndCopy (okRecv 2 [smp 1 2, smp 3 4])
            (initState 2 3)))).2.MultiDeviceBuffer.length = 2 ∧
     (∀ a ∈ (ObsPoint.afterLoop, receiveAndCopy errorRecvExample
        (accumulate (okRecv 2 [smp 1 2, smp 3 4])
          (receiveAndCopy (okRecv 2 [smp 1 2, smp 3 4]) (initState 2 3)))).2.MultiDeviceBuffer,
      ∀ b ∈ (ObsPoint.afterLoop, receiveAndCopy errorRecvExample
        (accumulate (okRecv 2 [smp 1 2, smp 3 4])
          (receiveAndCopy (okRecv 2 [smp 1 2, smp 3 4]) (initState 2 3)))).2.MultiDeviceBuffer,
        a.length = b.length) ∧
     (∀ a ∈ (ObsPoint.afterLoop, receiveAndCopy errorRecvExample
        (accumulate (okRecv 2 [smp 1 2, smp 3 4])
          (receiveAndCopy (okRecv 2 [smp 1 2, smp 3 4]) (initState 2 3)))).2.MultiDeviceBuffer,
        a.length =
          (ObsPoint.afterLoop, receiveAndCopy errorRecvExample
            (accumulate (okRecv 2 [smp 1 2, smp 3 4])
              (receiveAndCopy (okRecv 2 [smp 1 2, smp 3 4])
                (initState 2 3)))).2.recv_calls * 3)) :=
  ⟨by decide,
   lockstep_at_every_observation 2 3 5 [okRecv 2 [smp 1 2, smp 3 4], errorRecvExample]
     (ObsPoint.afterLoop, receiveAndCopy errorRecvExample
        (accumulate (okRecv 2 [smp 1 2, smp 3 4])
          (receiveAndCopy (okRecv 2 [smp 1 2, smp 3 4]) (initState 2 3))))
     (by decide)⟩

/-- Claim C3 at a failing input: one channel, buffers of 2 samples, target 2,
every `recv` call giving 1 sample. After the first complete iteration
`num_acc_samps` is 1 and the accumulator has 2 samples; when the loop is left
`num_acc_samps` is 2 and the accumulator has 4 samples. Each observation is
listed as (point, `num_acc_samps`, accumulator lengths). -/
theorem count_differs_from_accumulator_length :
    (sessionTrace 1 2 2 [okRecv 1 [smp 1 2], okRecv 1 [smp 3 4]]).map
        (fun o => (o.1, o.2.num_acc_samps, o.2.MultiDeviceBuffer.map List.length))
      = [(ObsPoint.beforeLoop, 0, [0]),
         (ObsPoint.afterAppend, 0, [2]),
         (ObsPoint.afterIteration, 1, [2]),
         (ObsPoint.afterAppend, 1, [4]),
         (ObsPoint.afterIteration, 2, [4]),
         (ObsPoint.afterLoop, 2, [4])] := by
  decide

/-- Claim C2 at a failing input: one channel, buffers of 2 samples, target 4; the
first `recv` call gives the samples (1,2) and (3,4), the second one times out
with no sample. The program takes the timeout exit after 2 calls with
`num_acc_samps = 2`, the transport delivered 2 samples, and the accumulator
holds 4: the delivered ones followed by the unchanged buffer content. -/
theorem timeout_accumulator_is_padded :
    main "out_" "10.10.0.10" showBits noInfo 1 2 4 [okRecv 1 [smp 1 2, smp 3 4], timeoutRecv 1]
      = ProgramResult.receiveTimeout
          { MultiDeviceBuffer := [[smp 1 2, smp 3 4, smp 1 2, smp 3 4]]
            buffs := [[smp 1 2, smp 3 4]]
            timeout := RecvTimeout.tenth
            num_acc_samps := 2
            recv_calls := 2 } ∧
    delivered 0 [okRecv 1 [smp 1 2, smp 3 4], timeoutRecv 1] = [smp 1 2, smp 3 4] ∧
    deliveredCount [okRecv 1 [smp 1 2, smp 3 4], timeoutRecv 1] = 2 := by
  decide

/-! ## CTimer::diff -/

/-- Claim C10 (timer difference). For timestamps whose nanosecond fields lie in
`[0, 10^9)`, `diff start end` has its nanosecond field in `[0, 10^9)`, represents
exactly the difference of the two instants in nanoseconds, and its seconds
field is `end.sec - start.sec - 1` when `end.nsec < start.nsec` and
`end.sec - start.sec` otherwise. -/
theorem diff_normalised (start stop : Timespec)
    (hs : 0 ≤ start.tv_nsec ∧ start.tv_nsec < 1000000000)
    (he : 0 ≤ stop.tv_nsec ∧ stop.tv_nsec < 1000000000) :
    0 ≤ (diff start stop).tv_nsec ∧ (diff start stop).tv_nsec < 1000000000 ∧
    (diff start stop).tv_sec * 1000000000 + (diff start stop).tv_nsec
      = (stop.tv_sec * 1000000000 + stop.tv_nsec)
        - (start.tv_sec * 1000000000 + start.tv_nsec) ∧
    (stop.tv_nsec < start.tv_nsec →
      (diff start stop).tv_sec = stop.tv_sec - start.tv_sec - 1) ∧
    (¬ stop.tv_nsec < start.tv_nsec →
      (diff start stop).tv_sec = stop.tv_sec - start.tv_sec) := by
  obtain ⟨hs1, hs2⟩ := hs
  obtain ⟨he1, he2⟩ := he
  unfold diff
  split
  · rename_i h
    refine ⟨?_, ?_, ?_, ?_, ?_⟩
    · show 0 ≤ 1000000000 + stop.tv_nsec - start.tv_nsec
      omega
    · show 1000000000 + stop.tv_nsec - start.tv_nsec < 1000000000
      omega
    · show (stop.tv_sec - start.tv_sec - 1) * 1000000000
        + (1000000000 + stop.tv_nsec - start.tv_nsec) = _
      omega
    · intro _; rfl
    · intro hn; omega
  · rename_i h
    refine ⟨?_, ?_, ?_, ?_, ?_⟩
    · show 0 ≤ stop.tv_nsec - start.tv_nsec
      omega
    · show stop.tv_nsec - start.tv_nsec < 1000000000
      omega
    · show (stop.tv_sec - start.tv_sec) * 1000000000 + (stop.tv_nsec - start.tv_nsec) = _
      omega
    · intro hn; omega
    · intro _; rfl

/-- Instance of claim C10 with a borrow: from 5 s 900000000 ns to 7 s 100000000 ns
the difference is 1 s 200000000 ns. -/
theorem diff_normalised_witness :
    ((0 ≤ (900000000 : Int) ∧ (900000000 : Int) < 1000000000) ∧
     (0 ≤ (100000000 : Int) ∧ (100000000 : Int) < 1000000000)) ∧
    diff ⟨5, 900000000⟩ ⟨7, 100000000⟩ = ⟨1, 200000000⟩ ∧
    (0 ≤ (diff ⟨5, 900000000⟩ ⟨7, 100000000⟩).tv_nsec ∧
     (diff ⟨5, 900000000⟩ ⟨7, 100000000⟩).tv_nsec < 1000000000 ∧
     (diff ⟨5, 900000000⟩ ⟨7, 100000000⟩).tv_sec * 1000000000
        + (diff ⟨5, 900000000⟩ ⟨7, 100000000⟩).tv_nsec
       = ((7 : Int) * 1000000000 + 100000000) - ((5 : Int) * 1000000000 + 900000000) ∧
     (((100000000 : Int) < 900000000) →
        (diff ⟨5, 900000000⟩ ⟨7, 100000000⟩).tv_sec = (7 : Int) - 5 - 1) ∧
     ((¬ ((100000000 : Int) < 900000000)) →
        (diff ⟨5, 900000000⟩ ⟨7, 100000000⟩).tv_sec = (7 : Int) - 5)) :=
  ⟨⟨⟨by decide, by decide⟩, ⟨by decide, by decide⟩⟩, by decide,
   diff_normalised ⟨5, 900000000⟩ ⟨7, 100000000⟩ ⟨by decide, by decide⟩ ⟨by decide, by decide⟩⟩

/-! ## Completed sessions -/

theorem recvLoop_count_le (spb T : Nat) (script : List RecvResult)
    (hwf : ∀ r ∈ script, r.num_rx_samps ≤ spb) (st : LoopState)
    (h : st.num_acc_samps ≤ st.recv_calls * spb) :
    (recvLoop T script st).2.num_acc_samps ≤ (recvLoop T script st).2.recv_calls * spb := by
  induction script generalizing st with
  | nil =>
    simp only [recvLoop]
    split <;> exact h
  | cons r rest ih =>
    have hr := hwf r (List.mem_cons_self _ _)
    have h1 : (receiveAndCopy r st).num_acc_samps ≤ (receiveAndCopy r st).recv_calls * spb := by
      show st.num_acc_samps ≤ (st.recv_calls + 1) * spb
      rw [Nat.add_mul]; omega
    simp only [recvLoop]
    split
    · split
      · exact h1
      · split
        · exact h1
        · apply ih (fun x hx => hwf x (List.mem_cons_of_mem _ hx))
          show st.num_acc_samps + r.num_rx_samps ≤ (st.recv_calls + 1) * spb
          rw [Nat.add_mul]; omega
    · exact h

/-- What is known when `main` reaches its sinks: the loop state has the shape of
the session, every accumulator has at least `total_num_samps` samples, and each
sink ran exactly when its option is not empty. -/
theorem main_done_inv ( filename_prefix udp_dst_addr : String) (showFloat : Word32 → String)
    (info : Nat → ChannelInfo) (N spb T : Nat) (script : List RecvResult)
    (hwf : ∀ r ∈ script, r.num_rx_samps ≤ spb)
    (st : LoopState) (files : SinkRun FileOutput) (udp : SinkRun (List Datagram))
    (h : main filename_prefix udp_dst_addr showFloat info N spb T script
          = ProgramResult.done st files udp) :
    Shape N spb st ∧ (∀ a ∈ st.MultiDeviceBuffer, T ≤ a.length) ∧
    files = (if filename_prefix ≠ "" then
              SinkRun.ofOption (fileOutput filename_prefix showFloat info N T st.MultiDeviceBuffer)
             else SinkRun.skipped) ∧
    udp = (if udp_dst_addr ≠ "" then SinkRun.ofOption (udpOutput N T st.MultiDeviceBuffer)
           else SinkRun.skipped) := by
  have hshape := shape_recvLoop N spb T script (initState N spb) (shape_initState N spb)
  have hcount := recvLoop_count_le spb T script hwf (initState N spb) (Nat.zero_le _)
  unfold main at h
  have key : ∀ st0 : LoopState, Shape N spb st0 → st0.num_acc_samps ≤ st0.recv_calls * spb →
      (if receiveTimeoutExit T st0 then ProgramResult.receiveTimeout st0
       else ProgramResult.done st0
        (if filename_prefix ≠ "" then
          SinkRun.ofOption (fileOutput filename_prefix showFloat info N T st0.MultiDeviceBuffer)
         else SinkRun.skipped)
        (if udp_dst_addr ≠ "" then SinkRun.ofOption (udpOutput N T st0.MultiDeviceBuffer)
         else SinkRun.skipped)) = ProgramResult.done st files udp →
      Shape N spb st ∧ (∀ a ∈ st.MultiDeviceBuffer, T ≤ a.length) ∧
      files = (if filename_prefix ≠ "" then
                SinkRun.ofOption (fileOutput filename_prefix showFloat info N T st.MultiDeviceBuffer)
               else SinkRun.skipped) ∧
      udp = (if udp_dst_addr ≠ "" then SinkRun.ofOption (udpOutput N T st.MultiDeviceBuffer)
             else SinkRun.skipped) := by
    intro st0 hs0 hc0 h0
    by_cases ht : receiveTimeoutExit T st0 = true
    · rw [if_pos ht] at h0
      cases h0
    · rw [if_neg ht] at h0
      injection h0 with e1 e2 e3
      subst e1
      refine ⟨hs0, ?_, e2.symm, e3.symm⟩
      intro a ha
      have hlen := hs0.2.2.2 a ha
      simp only [receiveTimeoutExit, decide_eq_true_eq, Nat.not_lt] at ht
      omega
  simp only [runLoop] at h
  split at h
  · cases h
  · cases h
  · rename_i ex st0 _ _ heq
    have e : (recvLoop T script (initState N spb)).2 = st0 := by rw [heq]
    rw [e] at hshape hcount
    exact key st0 hshape hcount h

/-! ## Byte layout -/

theorem decode32_le32 (w : Word32) :
    decode32 (Fin.ofNat (w.val % 256)) (Fin.ofNat (w.val / 256 % 256))
      (Fin.ofNat (w.val / 65536 % 256)) (Fin.ofNat (w.val / 16777216 % 256)) = w := by
  obtain ⟨v, hv⟩ := w
  apply Fin.ext
  simp only [decode32, Fin.ofNat]
  omega

theorem decodeSamples_sampleBytes (s : Sample) (rest : List Byte) :
    decodeSamples (sampleBytes s ++ rest) = s :: decodeSamples rest := by
  simp only [sampleBytes, le32, List.cons_append, List.nil_append, decodeSamples,
    decode32_le32]
  rfl

theorem decodeSamples_bufferBytes (l : List Sample) : decodeSamples (bufferBytes l) = l := by
  induction l with
  | nil => simp [bufferBytes, decodeSamples]
  | cons s rest ih => rw [bufferBytes, decodeSamples_sampleBytes, ih]

theorem sampleBytes_length (s : Sample) : (sampleBytes s).length = 8 := by
  simp [sampleBytes, le32]

theorem bufferBytes_length (l : List Sample) : (bufferBytes l).length = 8 * l.length := by
  induction l with
  | nil => simp [bufferBytes]
  | cons s rest ih =>
    rw [bufferBytes, List.length_append, sampleBytes_length, ih, List.length_cons]
    omega

theorem bufferBytes_take (l : List Sample) (n : Nat) :
    (bufferBytes l).take (8 * n) = bufferBytes (l.take n) := by
  induction l generalizing n with
  | nil => simp [bufferBytes]
  | cons s rest ih =>
    cases n with
    | zero => simp [bufferBytes]
    | succ n =>
      rw [List.take_succ_cons, bufferBytes, bufferBytes, List.take_append_eq_append_take,
        sampleBytes_length, List.take_of_length_le (by rw [sampleBytes_length]; omega)]
      have e : 8 * (n + 1) - 8 = 8 * n := by omega
      rw [e, ih]

/-! ## File output in closed form -/

theorem metaDump_eq (showFloat : Word32 → String) (buf : List Sample) (count i : Nat)
    (h : i + count ≤ buf.length) :
    metaDump showFloat buf count i
      = some ((List.range' i count).map
          (fun j => sampleLine showFloat j (buf.getD j zeroSample))) := by
  induction count generalizing i with
  | zero => simp [metaDump]
  | succ count ih =>
    have hi : i < buf.length := by omega
    have e1 : buf.get? i = some (buf.getD i zeroSample) := by
      rw [List.get?_eq_getElem?, List.getElem?_eq_getElem hi, List.getD_eq_getElem _ _ hi]
    simp only [metaDump, e1, ih (i + 1) (by omega), Option.map_some', List.range'_succ,
      List.map_cons]

theorem metaSampleLines_eq (showFloat : Word32 → String) (T : Nat) (buf : List Sample)
    (h : T ≤ buf.length) :
    metaSampleLines showFloat T buf = some (dumpLines showFloat T buf) := by
  unfold metaSampleLines dumpLines
  split
  · rw [metaDump_eq showFloat buf T 0 (by omega), List.range_eq_range']
  · rfl

theorem binaryFile_eq (T : Nat) (buf : List Sample) (h : T ≤ buf.length) :
    binaryFile T buf = some (bufferBytes (buf.take T)) := by
  rw [binaryFile, if_pos h, bufferBytes_take]

theorem writeChannel_eq ( filename_prefix : String) (showFloat : Word32 → String)
    (info : Nat → ChannelInfo) (T ch : Nat) (buf : List Sample) (h : T ≤ buf.length) :
    writeChannel filename_prefix showFloat info T ch buf
      = some (channelFilesOf filename_prefix showFloat info T ch buf) := by
  simp only [writeChannel, metaSampleLines_eq showFloat T buf h, binaryFile_eq T buf h,
    channelFilesOf]

theorem tbwAdd_eq (tbw T : Nat) : tbwAdd tbw T = (tbw + 8 * T) % 2 ^ 32 := by
  unfold tbwAdd
  omega

theorem fileChannels_eq ( filename_prefix : String) (showFloat : Word32 → String)
    (info : Nat → ChannelInfo) (T : Nat) (mdb : List (List Sample))
    (hall : ∀ buf ∈ mdb, T ≤ buf.length) (count ch tbw : Nat)
    (hch : ch + count ≤ mdb.length) (htbw : tbw < 2 ^ 32) :
    fileChannels filename_prefix showFloat info T mdb count ch tbw
      = some { files := (List.range' ch count).map
                 (fun c => channelFilesOf filename_prefix showFloat info T c (mdb.getD c []))
               tbw := (tbw + count * (8 * T)) % 2 ^ 32 } := by
  induction count generalizing ch tbw with
  | zero =>
    simp only [fileChannels, List.range'_zero, List.map_nil, Nat.zero_mul, Nat.add_zero,
      Nat.mod_eq_of_lt htbw]
  | succ count ih =>
    have hi : ch < mdb.length := by omega
    have e1 : mdb.get? ch = some (mdb.getD ch []) := by
      rw [List.get?_eq_getElem?, List.getElem?_eq_getElem hi, List.getD_eq_getElem _ _ hi]
    have hlen : T ≤ (mdb.getD ch []).length := hall _ (List.get?_mem e1)
    have e2 : ((tbw + 8 * T) % 2 ^ 32 + count * (8 * T)) % 2 ^ 32
        = (tbw + (count + 1) * (8 * T)) % 2 ^ 32 := by
      rw [Nat.add_mul, Nat.one_mul]
      generalize count * (8 * T) = y
      omega
    simp only [fileChannels, e1, writeChannel_eq filename_prefix showFloat info T ch _ hlen,
      tbwAdd_eq, ih (ch + 1) ((tbw + 8 * T) % 2 ^ 32) (by omega) (Nat.mod_lt _ (by norm_num)),
      Option.map_some', List.range'_succ, List.map_cons, e2]

theorem fileOutput_eq ( filename_prefix : String) (showFloat : Word32 → String)
    (info : Nat → ChannelInfo) (N T : Nat) (mdb : List (List Sample))
    (hN : mdb.length = N) (hall : ∀ buf ∈ mdb, T ≤ buf.length) :
    fileOutput filename_prefix showFloat info N T mdb
      = some { files := (List.range N).map
                 (fun c => channelFilesOf filename_prefix showFloat info T c (mdb.getD c []))
               tbw := (N * (8 * T)) % 2 ^ 32 } := by
  rw [fileOutput, fileChannels_eq filename_prefix showFloat info T mdb hall N 0 0
    (by omega) (by norm_num), List.range_eq_range', Nat.zero_add]

/-- The file output of a completed session, in closed form. -/
theorem files_of_completed ( filename_prefix udp_dst_addr : String) (showFloat : Word32 → String)
    (info : Nat → ChannelInfo) (N spb T : Nat) (script : List RecvResult)
    (hfile : filename_prefix ≠ "") (hwf : ∀ r ∈ script, r.num_rx_samps ≤ spb)
    (st : LoopState) (files : SinkRun FileOutput) (udp : SinkRun (List Datagram))
    (hdone : main filename_prefix udp_dst_addr showFloat info N spb T script
          = ProgramResult.done st files udp) :
    files = SinkRun.wrote
      { files := (List.range N).map (fun c =>
          channelFilesOf filename_prefix showFloat info T c (st.MultiDeviceBuffer.getD c []))
        tbw := (N * (8 * T)) % 2 ^ 32 } ∧
    st.MultiDeviceBuffer.length = N ∧ ∀ a ∈ st.MultiDeviceBuffer, T ≤ a.length := by
  obtain ⟨hshape, hall, hfiles, _⟩ := main_done_inv filename_prefix udp_dst_addr showFloat info
    N spb T script hwf st files udp hdone
  rw [if_pos hfile, fileOutput_eq filename_prefix showFloat info N T _ hshape.1 hall] at hfiles
  exact ⟨hfiles, hshape.1, hall⟩

theorem getD_of_lt (mdb : List (List Sample)) (ch : Nat) (h : ch < mdb.length) :
    mdb.get? ch = some (mdb.getD ch []) ∧ mdb.getD ch [] ∈ mdb := by
  have e1 : mdb.get? ch = some (mdb.getD ch []) := by
    rw [List.get?_eq_getElem?, List.getElem?_eq_getElem h, List.getD_eq_getElem _ _ h]
  exact ⟨e1, List.get?_mem e1⟩

theorem get?_map_range {α : Type} (g : Nat → α) (N ch : Nat) (h : ch < N) :
    ((List.range N).map g).get? ch = some (g ch) := by
  rw [List.get?_eq_getElem?, List.getElem?_map, List.getElem?_range h]
  rfl

/-- Claim C8 (file sink threshold). In every completed session with file output
(the transport never returning more than `samps_per_buff` samples per call), the
file output writes one meta file per channel; the one of channel `ch` is named
`<prefix>ch_<ch>_meta`, starts with the thirteen metadata lines, and continues,
when `total_num_samps < 16000`, with exactly `total_num_samps` lines, line `i`
being the decimal index `i`, a blank, the rendered real part of sample `i` of
that channel's accumulator, a blank and its rendered imaginary part, in
increasing index order; when `total_num_samps ≥ 16000` nothing follows the
metadata lines. -/
theorem meta_dump_threshold ( filename_prefix udp_dst_addr : String)
    (showFloat : Word32 → String) (info : Nat → ChannelInfo) (N spb T : Nat)
    (script : List RecvResult)
    (hfile : filename_prefix ≠ "") (hwf : ∀ r ∈ script, r.num_rx_samps ≤ spb)
    (st : LoopState) (files : SinkRun FileOutput) (udp : SinkRun (List Datagram))
    (hdone : main filename_prefix udp_dst_addr showFloat info N spb T script
          = ProgramResult.done st files udp) :
    ∃ out, files = SinkRun.wrote out ∧ out.files.length = N ∧
      ∀ ch, ch < N → ∃ buf f,
        st.MultiDeviceBuffer.get? ch = some buf ∧ out.files.get? ch = some f ∧
        T ≤ buf.length ∧
        f.metaName = filename_prefix ++ "ch_" ++ toString ch ++ "_meta" ∧
        f.metaLines.take 13 =
          [ "channel              : " ++ toString ch,
            "mboard id            : " ++ (info ch).mboard_id,
            "mboard_serial        : " ++ (info ch).mboard_serial,
            "mboard_name          : " ++ (info ch).mboard_name,
            "rx_id                : " ++ (info ch).rx_id,
            "rx_subdev_name       : " ++ (info ch).rx_subdev_name,
            "rx_subdev_spec       : " ++ (info ch).rx_subdev_spec,
            "total samples        : " ++ toString T,
            "sample size          : " ++ "8",
            "RX frequency (MHz)   : " ++ (info ch).rx_freq_MHz,
            "RX sample rate (MHz) : " ++ (info ch).rx_rate_MHz,
            "RX gain (dB)         : " ++ (info ch).rx_gain_dB,
            "RX antenna           : " ++ (info ch).rx_antenna ] ∧
        f.metaLines.drop 13 =
          (if T < 16000 then
            (List.range T).map (fun i =>
              toString i ++ " " ++ showFloat (buf.getD i zeroSample).re ++ " "
                ++ showFloat (buf.getD i zeroSample).im)
           else []) ∧
        (T < 16000 → (f.metaLines.drop 13).length = T) ∧
        (16000 ≤ T → f.metaLines.drop 13 = []) := by
  obtain ⟨hfiles, hN, hall⟩ := files_of_completed filename_prefix udp_dst_addr showFloat info
    N spb T script hfile hwf st files udp hdone
  refine ⟨_, hfiles, by simp, ?_⟩
  intro ch hch
  obtain ⟨e1, hmem⟩ := getD_of_lt st.MultiDeviceBuffer ch (by omega)
  have hhead : (metaHeader ch T (info ch)).length = 13 := rfl
  have hdrop : (channelFilesOf filename_prefix showFloat info T ch
        (st.MultiDeviceBuffer.getD ch [])).metaLines.drop 13
      = (if T < 16000 then
          (List.range T).map (fun i =>
            toString i ++ " " ++ showFloat ((st.MultiDeviceBuffer.getD ch []).getD i zeroSample).re
              ++ " " ++ showFloat ((st.MultiDeviceBuffer.getD ch []).getD i zeroSample).im)
         else []) := by
    show (metaHeader ch T (info ch)
      ++ dumpLines showFloat T (st.MultiDeviceBuffer.getD ch [])).drop 13 = _
    rw [List.drop_left' hhead]
    rfl
  refine ⟨_, _, e1, get?_map_range _ N ch hch, hall _ hmem, rfl, ?_, hdrop, ?_, ?_⟩
  · show (metaHeader ch T (info ch)
      ++ dumpLines showFloat T (st.MultiDeviceBuffer.getD ch [])).take 13 = _
    rw [List.take_left' hhead]
    rfl
  · intro hT
    rw [hdrop, if_pos hT, List.length_map, List.length_range]
  · intro hT
    have : ¬ T < 16000 := by omega
    rw [hdrop, if_neg this]

/-- Instance of claim C8: one channel, target 3, two `recv` calls of 2 samples;
the meta file is the thirteen metadata lines followed by the three lines
`0 1 2`, `1 3 4`, `2 5 6` of samples 0, 1, 2. -/
theorem meta_dump_threshold_witness :
    ∃ st files udp,
      (("out_" ≠ "") ∧
       (∀ r ∈ [okRecv 1 [smp 1 2, smp 3 4], okRecv 1 [smp 5 6, smp 7 8]],
          r.num_rx_samps ≤ 2) ∧
       main "out_" "" showBits noInfo 1 2 3
          [okRecv 1 [smp 1 2, smp 3 4], okRecv 1 [smp 5 6, smp 7 8]]
         = ProgramResult.done st files udp) ∧
      (∃ out, files = SinkRun.wrote out ∧ out.files.length = 1 ∧
        ∀ ch, ch < 1 → ∃ buf f,
          st.MultiDeviceBuffer.get? ch = some buf ∧ out.files.get? ch = some f ∧
          3 ≤ buf.length ∧
          f.metaName = "out_" ++ "ch_" ++ toString ch ++ "_meta" ∧
          f.metaLines.take 13 =
            [ "channel              : " ++ toString ch,
              "mboard id            : " ++ (noInfo ch).mboard_id,
              "mboard_serial        : " ++ (noInfo ch).mboard_serial,
              "mboard_name          : " ++ (noInfo ch).mboard_name,
              "rx_id                : " ++ (noInfo ch).rx_id,
              "rx_subdev_name       : " ++ (noInfo ch).rx_subdev_name,
              "rx_subdev_spec       : " ++ (noInfo ch).rx_subdev_spec,
              "total samples        : " ++ toString 3,
              "sample size          : " ++ "8",
              "RX frequency (MHz)   : " ++ (noInfo ch).rx_freq_MHz,
              "RX sample rate (MHz) : " ++ (noInfo ch).rx_rate_MHz,
              "RX gain (dB)         : " ++ (noInfo ch).rx_gain_dB,
              "RX antenna           : " ++ (noInfo ch).rx_antenna ] ∧
          f.metaLines.drop 13 =
            (if 3 < 16000 then
              (List.range 3).map (fun i =>
                toString i ++ " " ++ showBits (buf.getD i zeroSample).re ++ " "
                  ++ showBits (buf.getD i zeroSample).im)
             else []) ∧
          (3 < 16000 → (f.metaLines.drop 13).length = 3) ∧
          (16000 ≤ 3 → f.metaLines.drop 13 = [])) ∧
      files = SinkRun.wrote
        { files := [{ metaName := "out_ch_0_meta"
                      metaLines :=
                        [ "channel              : 0", "mboard id            : ",
                          "mboard_serial        : ", "mboard_name          : ",
                          "rx_id                : ", "rx_subdev_name       : ",
                          "rx_subdev_spec       : ", "total samples        : 3",
                          "sample size          : 8", "RX frequency (MHz)   : ",
                          "RX sample rate (MHz) : ", "RX gain (dB)         : ",
                          "RX antenna           : ", "0 1 2", "1 3 4", "2 5 6" ]
                      binaryName := "out_ch_0_binary"
                      binaryBytes := [1, 0, 0, 0, 2, 0, 0, 0, 3, 0, 0, 0, 4, 0, 0, 0,
                                      5, 0, 0, 0, 6, 0, 0, 0] }]
          tbw := 24 } :=
  ⟨_, _, _, ⟨by decide, by decide, rfl⟩,
   meta_dump_threshold "out_" "" showBits noInfo 1 2 3
     [okRecv 1 [smp 1 2, smp 3 4], okRecv 1 [smp 5 6, smp 7 8]] (by decide) (by decide)
     _ _ _ rfl,
   by decide⟩

/-- Claim C7 as stated fails: one channel, target 1, buffers of 2 samples, one
`recv` call giving 2 samples. The session completes with an accumulator of 2
samples, the binary file has the 8 bytes of the first sample only, and decoding
it gives 1 sample, not the accumulator. -/
theorem binary_file_drops_accumulator_tail :
    main "out_" "" showBits noInfo 1 2 1 [okRecv 1 [smp 1 2, smp 3 4]]
      = ProgramResult.done
          { MultiDeviceBuffer := [[smp 1 2, smp 3 4]]
            buffs := [[smp 1 2, smp 3 4]]
            timeout := RecvTimeout.tenth
            num_acc_samps := 2
            recv_calls := 1 }
          (SinkRun.wrote
            { files := [{ metaName := "out_ch_0_meta"
                          metaLines := metaHeader 0 1 (noInfo 0) ++ ["0 1 2"]
                          binaryName := "out_ch_0_binary"
                          binaryBytes := [1, 0, 0, 0, 2, 0, 0, 0] }]
              tbw := 8 })
          SinkRun.skipped ∧
    decodeSamples [1, 0, 0, 0, 2, 0, 0, 0] = [smp 1 2] ∧
    decodeSamples [1, 0, 0, 0, 2, 0, 0, 0] ≠ [smp 1 2, smp 3 4] := by
  decide

/-- Claim C7 as amended (binary round-trip of the written prefix). In every
completed session with file output (the transport never returning more than
`samps_per_buff` samples per call), the binary file of channel `ch` holds
exactly `8 * total_num_samps` bytes, they are the bytes of the first
`total_num_samps` samples of that channel's accumulator with nothing before
them, and decoding them as consecutive 8-byte samples gives back those
`total_num_samps` samples, in order. -/
theorem binary_file_is_accumulator_prefix ( filename_prefix udp_dst_addr : String)
    (showFloat : Word32 → String) (info : Nat → ChannelInfo) (N spb T : Nat)
    (script : List RecvResult)
    (hfile : filename_prefix ≠ "") (hwf : ∀ r ∈ script, r.num_rx_samps ≤ spb)
    (st : LoopState) (files : SinkRun FileOutput) (udp : SinkRun (List Datagram))
    (hdone : main filename_prefix udp_dst_addr showFloat info N spb T script
          = ProgramResult.done st files udp) :
    ∃ out, files = SinkRun.wrote out ∧ out.files.length = N ∧
      ∀ ch, ch < N → ∃ buf f,
        st.MultiDeviceBuffer.get? ch = some buf ∧ out.files.get? ch = some f ∧
        f.binaryBytes = bufferBytes (buf.take T) ∧
        f.binaryBytes.length = 8 * T ∧
        decodeSamples f.binaryBytes = buf.take T ∧
        (decodeSamples f.binaryBytes).length = T := by
  obtain ⟨hfiles, hN, hall⟩ := files_of_completed filename_prefix udp_dst_addr showFloat info
    N spb T script hfile hwf st files udp hdone
  refine ⟨_, hfiles, by simp, ?_⟩
  intro ch hch
  obtain ⟨e1, hmem⟩ := getD_of_lt st.MultiDeviceBuffer ch (by omega)
  have hlen : ((st.MultiDeviceBuffer.getD ch []).take T).length = T := by
    rw [List.length_take]
    exact Nat.min_eq_left (hall _ hmem)
  refine ⟨_, _, e1, get?_map_range _ N ch hch, rfl, ?_, ?_, ?_⟩
  · show (bufferBytes ((st.MultiDeviceBuffer.getD ch []).take T)).length = 8 * T
    rw [bufferBytes_length, hlen]
  · show decodeSamples (bufferBytes ((st.MultiDeviceBuffer.getD ch []).take T)) = _
    rw [decodeSamples_bufferBytes]
  · show (decodeSamples (bufferBytes ((st.MultiDeviceBuffer.getD ch []).take T))).length = T
    rw [decodeSamples_bufferBytes, hlen]

/-- Instance of the amended claim C7: two channels, target 3, two `recv` calls
of 2 samples each. -/
theorem binary_file_is_accumulator_prefix_witness :
    ∃ st files udp,
      (("out_" ≠ "") ∧
       (∀ r ∈ [okRecv 2 [smp 1 2, smp 3 4], okRecv 2 [smp 5 6, smp 7 8]],
          r.num_rx_samps ≤ 2) ∧
       main "out_" "" showBits noInfo 2 2 3
          [okRecv 2 [smp 1 2, smp 3 4], okRecv 2 [smp 5 6, smp 7 8]]
         = ProgramResult.done st files udp) ∧
      ∃ out, files = SinkRun.wrote out ∧ out.files.length = 2 ∧
        ∀ ch, ch < 2 → ∃ buf f,
          st.MultiDeviceBuffer.get? ch = some buf ∧ out.files.get? ch = some f ∧
          f.binaryBytes = bufferBytes (buf.take 3) ∧
          f.binaryBytes.length = 8 * 3 ∧
          decodeSamples f.binaryBytes = buf.take 3 ∧
          (decodeSamples f.binaryBytes).length = 3 :=
  ⟨_, _, _, ⟨by decide, by decide, rfl⟩,
   binary_file_is_accumulator_prefix "out_" "" showBits noInfo 2 2 3
     [okRecv 2 [smp 1 2, smp 3 4], okRecv 2 [smp 5 6, smp 7 8]] (by decide) (by decide)
     _ _ _ rfl⟩

/-! ## The byte counter `tbw` -/

/-- A session whose every `recv` call gives exactly `k` samples without error
(`1 ≤ k ≤ samps_per_buff`) reaches the sinks after `ceil(T / k)` calls, every
accumulator holding `ceil(T / k) * samps_per_buff` samples. -/
theorem main_uniform ( filename_prefix udp_dst_addr : String) (showFloat : Word32 → String)
    (info : Nat → ChannelInfo) (N spb T k : Nat) (hk1 : 1 ≤ k) (hk2 : k ≤ spb)
    (script : List RecvResult)
    (hs : ∀ r ∈ script, r.num_rx_samps = k ∧ r.error_code = ErrorCode.ERROR_CODE_NONE)
    (hlen : (T + k - 1) / k ≤ script.length) :
    ∃ st, main filename_prefix udp_dst_addr showFloat info N spb T script
        = ProgramResult.done st
            (if filename_prefix ≠ "" then
              SinkRun.ofOption (fileOutput filename_prefix showFloat info N T st.MultiDeviceBuffer)
             else SinkRun.skipped)
            (if udp_dst_addr ≠ "" then SinkRun.ofOption (udpOutput N T st.MultiDeviceBuffer)
             else SinkRun.skipped) ∧
      st.MultiDeviceBuffer.length = N ∧
      (∀ a ∈ st.MultiDeviceBuffer, a.length = (T + k - 1) / k * spb) ∧
      (∀ a ∈ st.MultiDeviceBuffer, T ≤ a.length) := by
  have hshape := shape_recvLoop N spb T script (initState N spb) (shape_initState N spb)
  obtain ⟨h1, h2, h3⟩ := recvLoop_uniform T k hk1 script hs (initState N spb)
    (by show (T - 0 + k - 1) / k ≤ script.length; rw [Nat.sub_zero]; exact hlen)
  have h2 : (runLoop N spb T script).2.recv_calls = (T + k - 1) / k := by
    rw [runLoop, h2]
    show 0 + (T - 0 + k - 1) / k = _
    rw [Nat.sub_zero, Nat.zero_add]
  have hT : T ≤ (runLoop N spb T script).2.num_acc_samps :=
    recvLoop_conditionFalse T script (initState N spb) h1
  have h3 : (runLoop N spb T script).2.num_acc_samps = k * ((T + k - 1) / k) := by
    rw [runLoop, h3]
    show 0 + k * ((T - 0 + k - 1) / k) = _
    rw [Nat.sub_zero, Nat.zero_add]
  have h1 : (runLoop N spb T script).1 = LoopExit.conditionFalse := h1
  have h4 : receiveTimeoutExit T (runLoop N spb T script).2 = false := by
    simp only [receiveTimeoutExit, decide_eq_false_iff_not]
    omega
  have h5 : (runLoop N spb T script).2.MultiDeviceBuffer.length = N := hshape.1
  have h6 : ∀ a ∈ (runLoop N spb T script).2.MultiDeviceBuffer, T ≤ a.length := by
    intro a ha
    have e : a.length = (runLoop N spb T script).2.recv_calls * spb := hshape.2.2.2 a ha
    rw [e, h2]
    rw [h3] at hT
    calc T ≤ k * ((T + k - 1) / k) := hT
      _ ≤ spb * ((T + k - 1) / k) := Nat.mul_le_mul_right _ hk2
      _ = (T + k - 1) / k * spb := Nat.mul_comm _ _
  refine ⟨(runLoop N spb T script).2, ?_, h5, ?_, h6⟩
  · unfold main
    generalize runLoop N spb T script = p at h1 h4
    obtain ⟨ex, st⟩ := p
    simp only at h1 h4
    subst h1
    simp only [h4]
    simp
  · intro a ha
    have := hshape.2.2.2 a ha
    rw [← h2]
    exact this

theorem uniform_script (c k : Nat) (data : List (List Sample)) :
    (∀ r ∈ List.replicate c (⟨k, ErrorCode.ERROR_CODE_NONE, data⟩ : RecvResult),
      r.num_rx_samps = k ∧ r.error_code = ErrorCode.ERROR_CODE_NONE) := by
  intro r hr
  rw [List.eq_of_mem_replicate hr]
  exact ⟨rfl, rfl⟩

theorem binaryLengths_eq ( filename_prefix : String) (showFloat : Word32 → String)
    (info : Nat → ChannelInfo) (N T : Nat) (mdb : List (List Sample))
    (hN : mdb.length = N) (hall : ∀ buf ∈ mdb, T ≤ buf.length) :
    ((List.range N).map
        (fun c => channelFilesOf filename_prefix showFloat info T c (mdb.getD c []))).map
        (fun f => f.binaryBytes.length)
      = List.replicate N (8 * T) := by
  rw [List.eq_replicate_iff]
  refine ⟨by simp, ?_⟩
  intro b hb
  simp only [List.map_map, List.mem_map, List.mem_range, Function.comp] at hb
  obtain ⟨c, hc, rfl⟩ := hb
  obtain ⟨_, hmem⟩ := getD_of_lt mdb c (by omega)
  simp only [channelFilesOf, bufferBytes_length, List.length_take]
  rw [Nat.min_eq_left (hall _ hmem)]

/-- Claim C9 at a failing input: one channel, `total_num_samps = 2 ^ 29`, buffers
of 364 samples, every `recv` call giving 364 samples. The session completes
after 1474921 calls, the binary file has `2 ^ 32` bytes, and the 32-bit `tbw`
ends as 0. -/
theorem tbw_wraps_at_four_gibibytes :
    ∃ st out,
      main "out_" "" showBits noInfo 1 364 536870912
          (List.replicate 1474921
            ⟨364, ErrorCode.ERROR_CODE_NONE, [List.replicate 364 zeroSample]⟩)
        = ProgramResult.done st (SinkRun.wrote out) SinkRun.skipped ∧
      out.tbw = 0 ∧
      out.files.map (fun f => f.binaryBytes.length) = [4294967296] ∧
      1 * 536870912 * 8 = 4294967296 := by
  obtain ⟨st, hmain, hN, _, hall⟩ := main_uniform "out_" "" showBits noInfo 1 364 536870912 364
    (by norm_num) (le_refl _)
    (List.replicate 1474921 ⟨364, ErrorCode.ERROR_CODE_NONE, [List.replicate 364 zeroSample]⟩)
    (uniform_script _ _ _) (by rw [List.length_replicate])
  have hp : ("out_" : String) ≠ "" := by decide
  have hq : ¬ (("" : String) ≠ "") := by decide
  rw [if_pos hp, if_neg hq, fileOutput_eq "out_" showBits noInfo 1 536870912 _ hN hall] at hmain
  refine ⟨st, _, hmain, ?_, ?_, ?_⟩
  · norm_num
  · show ((List.range 1).map (fun c => channelFilesOf "out_" showBits noInfo 536870912 c
        (st.MultiDeviceBuffer.getD c []))).map (fun f => f.binaryBytes.length) = [4294967296]
    rw [binaryLengths_eq "out_" showBits noInfo 1 536870912 _ hN hall, List.replicate_one]
  · norm_num

/-! ## Datagram output in closed form -/

theorem channelDatagrams_eq (buf : List Sample) (count off : Nat)
    (h : off + num_samps_per_datagram * count ≤ buf.length) :
    channelDatagrams buf count off
      = some ((List.range' off count num_samps_per_datagram).map
          (fun o => bufferBytes ((buf.drop o).take num_samps_per_datagram))) := by
  induction count generalizing off with
  | zero => simp [channelDatagrams]
  | succ count ih =>
    have h1 : off + num_samps_per_datagram ≤ buf.length := by
      rw [Nat.mul_succ] at h; omega
    have h2 : off + num_samps_per_datagram + num_samps_per_datagram * count ≤ buf.length := by
      rw [Nat.mul_succ] at h; omega
    simp only [channelDatagrams, if_pos h1, ih _ h2, Option.map_some', List.range'_succ,
      List.map_cons]

theorem channelDatagrams_past_end (buf : List Sample) (count off : Nat)
    (h : buf.length < off + num_samps_per_datagram * (count + 1)) :
    channelDatagrams buf (count + 1) off = none := by
  induction count generalizing off with
  | zero =>
    have h1 : ¬ off + num_samps_per_datagram ≤ buf.length := by
      simp only [Nat.zero_add, Nat.mul_one] at h; omega
    simp only [channelDatagrams, if_neg h1]
  | succ count ih =>
    by_cases h1 : off + num_samps_per_datagram ≤ buf.length
    · have h2 : buf.length
          < off + num_samps_per_datagram + num_samps_per_datagram * (count + 1) := by
        rw [Nat.mul_succ] at h; omega
      rw [channelDatagrams, if_pos h1, ih _ h2]
      rfl
    · rw [channelDatagrams, if_neg h1]

theorem udpPayload_eq (mdb : List (List Sample)) (n : Nat)
    (hall : ∀ buf ∈ mdb, num_samps_per_datagram * n ≤ buf.length) (count ch : Nat)
    (hch : ch + count ≤ mdb.length) :
    udpPayload mdb n count ch
      = some ((List.range' ch count).flatMap
          (fun c => channelPayloadOf (mdb.getD c []) n)) := by
  induction count generalizing ch with
  | zero => simp [udpPayload]
  | succ count ih =>
    obtain ⟨e1, hmem⟩ := getD_of_lt mdb ch (by omega)
    have e2 := channelDatagrams_eq (mdb.getD ch []) n 0 (by have := hall _ hmem; omega)
    simp only [udpPayload, e1, e2, ih (ch + 1) (by omega), Option.map_some', List.range'_succ,
      List.flatMap_cons, channelPayloadOf]

theorem udpOutput_eq (N T n : Nat) (mdb : List (List Sample))
    (hn : num_udp_datagrams T = some n) (hN : mdb.length = N)
    (hall : ∀ buf ∈ mdb, num_samps_per_datagram * n ≤ buf.length) :
    udpOutput N T mdb
      = some (udpHeader N T n ++
          (List.range N).flatMap (fun c => channelPayloadOf (mdb.getD c []) n)) := by
  simp only [udpOutput, hn, udpPayload_eq mdb n hall N 0 (by omega), Option.map_some',
    List.range_eq_range']

theorem udpOutput_past_end (N T m : Nat) (mdb : List (List Sample))
    (hn : num_udp_datagrams T = some (m + 1)) (hN : mdb.length = N) (hpos : 0 < N)
    (hall : ∀ buf ∈ mdb, buf.length < num_samps_per_datagram * (m + 1)) :
    udpOutput N T mdb = none := by
  obtain ⟨k, rfl⟩ : ∃ k, N = k + 1 := ⟨N - 1, by omega⟩
  obtain ⟨e1, hmem⟩ := getD_of_lt mdb 0 (by omega)
  have e2 := channelDatagrams_past_end (mdb.getD 0 []) m 0 (by have := hall _ hmem; omega)
  simp only [udpOutput, hn, udpPayload, e1, e2]
  rfl

theorem channelPayloadOf_length (buf : List Sample) (n : Nat) :
    (channelPayloadOf buf n).length = n := by
  simp [channelPayloadOf]

theorem flatMap_length_const {α β : Type} (l : List α) (f : α → List β) (k : Nat)
    (h : ∀ x ∈ l, (f x).length = k) : (l.flatMap f).length = l.length * k := by
  induction l with
  | nil => simp
  | cons x xs ih =>
    rw [List.flatMap_cons, List.length_append, h x (List.mem_cons_self _ _),
      ih (fun y hy => h y (List.mem_cons_of_mem _ hy)), List.length_cons, Nat.succ_mul]
    omega

/-- The number of `send` calls of a datagram output that stays inside the
accumulators: three header sends and `n` payload sends per channel. -/
theorem udpOutput_length (N T n : Nat) (mdb : List (List Sample)) (dgs : List Datagram)
    (hn : num_udp_datagrams T = some n) (hN : mdb.length = N)
    (hall : ∀ buf ∈ mdb, num_samps_per_datagram * n ≤ buf.length)
    (h : udpOutput N T mdb = some dgs) :
    dgs.length = 3 + N * n ∧ dgs.take 3 = udpHeader N T n := by
  rw [udpOutput_eq N T n mdb hn hN hall] at h
  injection h with h
  subst h
  constructor
  · rw [List.length_append, flatMap_length_const _ _ n
      (fun c _ => channelPayloadOf_length _ n), List.length_range]
    rfl
  · exact List.take_left' rfl

/-- Below `2 ^ 24` the conversion to `float` is exact, and the datagram count is
the integer quotient by 256. -/
theorem num_udp_datagrams_small (T : Nat) (h : T < 16777216) :
    num_udp_datagrams T = some (T / 256) := by
  have e : droppedBits 64 T = 0 := by simp [droppedBits, h]
  have hq : T / 256 < 2 ^ 32 := by omega
  simp only [num_udp_datagrams, floatOfNat, e, pow_zero, Nat.div_one, Nat.mod_one, Nat.mul_zero,
    Nat.lt_one_iff, if_true, Nat.mul_one, num_samps_per_datagram, hq]

/-- For targets below `2 ^ 24`, the datagram output of a completed session is the
three header fields (channel count, target, `T / 256`) followed, channel by
channel, by `T / 256` datagrams of 256 consecutive samples each; every read
stays inside the accumulator. -/
theorem datagram_framing_below_float_precision ( filename_prefix udp_dst_addr : String)
    (showFloat : Word32 → String) (info : Nat → ChannelInfo) (N spb T : Nat)
    (script : List RecvResult)
    (haddr : udp_dst_addr ≠ "") (hwf : ∀ r ∈ script, r.num_rx_samps ≤ spb)
    (hT : T < 16777216)
    (st : LoopState) (files : SinkRun FileOutput) (udp : SinkRun (List Datagram))
    (hdone : main filename_prefix udp_dst_addr showFloat info N spb T script
          = ProgramResult.done st files udp) :
    udp = SinkRun.wrote (udpHeader N T (T / 256) ++
      (List.range N).flatMap
        (fun c => channelPayloadOf (st.MultiDeviceBuffer.getD c []) (T / 256))) := by
  obtain ⟨hshape, hall, _, hudp⟩ := main_done_inv filename_prefix udp_dst_addr showFloat info
    N spb T script hwf st files udp hdone
  have hall2 : ∀ buf ∈ st.MultiDeviceBuffer, num_samps_per_datagram * (T / 256) ≤ buf.length := by
    intro buf hbuf
    have := hall buf hbuf
    show 256 * (T / 256) ≤ buf.length
    omega
  rw [if_pos haddr, udpOutput_eq N T (T / 256) _ (num_udp_datagrams_small T hT) hshape.1 hall2]
    at hudp
  exact hudp

/-- Claim C5 at a failing input: `total_num_samps = 16777471 = 2 ^ 24 + 255`, one
channel. `(float)16777471` is `16777472`, so the datagram count is 65537 while
`floor(16777471 / 256)` is 65536. With buffers of 3079 samples (5449 `recv`
calls of 3079 samples) the accumulator has exactly 16777471 samples and the
last datagram reads past its end; with buffers of 364 samples (46092 calls of
364 samples) the accumulator has 16777488 samples and 65537 payload datagrams
are sent after the three header sends. -/
theorem datagram_count_exceeds_floor :
    num_udp_datagrams 16777471 = some 65537 ∧ 16777471 / 256 = 65536 ∧
    (∃ st, main "" "10.10.0.10" showBits noInfo 1 3079 16777471
          (List.replicate 5449
            ⟨3079, ErrorCode.ERROR_CODE_NONE, [List.replicate 3079 zeroSample]⟩)
        = ProgramResult.done st SinkRun.skipped SinkRun.faulted ∧
      ∀ a ∈ st.MultiDeviceBuffer, a.length = 16777471) ∧
    (∃ st dgs, main "" "10.10.0.10" showBits noInfo 1 364 16777471
          (List.replicate 46092
            ⟨364, ErrorCode.ERROR_CODE_NONE, [List.replicate 364 zeroSample]⟩)
        = ProgramResult.done st SinkRun.skipped (SinkRun.wrote dgs) ∧
      (∀ a ∈ st.MultiDeviceBuffer, a.length = 16777488) ∧
      dgs.length = 3 + 65537) := by
  have hn : num_udp_datagrams 16777471 = some 65537 := by decide
  have hp : ¬ (("" : String) ≠ "") := by decide
  have hq : ("10.10.0.10" : String) ≠ "" := by decide
  refine ⟨hn, by norm_num, ?_, ?_⟩
  · obtain ⟨st, hmain, hN, hlen, _⟩ := main_uniform "" "10.10.0.10" showBits noInfo 1 3079
      16777471 3079 (by norm_num) (le_refl _)
      (List.replicate 5449 ⟨3079, ErrorCode.ERROR_CODE_NONE, [List.replicate 3079 zeroSample]⟩)
      (uniform_script _ _ _) (by rw [List.length_replicate])
    have hlen2 : ∀ a ∈ st.MultiDeviceBuffer, a.length = 16777471 := by
      intro a ha
      rw [hlen a ha]
    have hall : ∀ buf ∈ st.MultiDeviceBuffer,
        buf.length < num_samps_per_datagram * (65536 + 1) := by
      intro buf hbuf
      rw [hlen2 buf hbuf]
      show 16777471 < 256 * (65536 + 1)
      norm_num
    rw [if_neg hp, if_pos hq, udpOutput_past_end 1 16777471 65536 _ hn hN (by norm_num) hall]
      at hmain
    exact ⟨st, hmain, hlen2⟩
  · obtain ⟨st, hmain, hN, hlen, _⟩ := main_uniform "" "10.10.0.10" showBits noInfo 1 364
      16777471 364 (by norm_num) (le_refl _)
      (List.replicate 46092 ⟨364, ErrorCode.ERROR_CODE_NONE, [List.replicate 364 zeroSample]⟩)
      (uniform_script _ _ _) (by rw [List.length_replicate])
    have hlen2 : ∀ a ∈ st.MultiDeviceBuffer, a.length = 16777488 := by
      intro a ha
      rw [hlen a ha]
    have hall : ∀ buf ∈ st.MultiDeviceBuffer, num_samps_per_datagram * 65537 ≤ buf.length := by
      intro buf hbuf
      rw [hlen2 buf hbuf]
      show 256 * 65537 ≤ 16777488
      norm_num
    have hout := udpOutput_eq 1 16777471 65537 _ hn hN hall
    rw [if_neg hp, if_pos hq, hout] at hmain
    exact ⟨st, _, hmain, hlen2, (udpOutput_length 1 16777471 65537 _ _ hn hN hall hout).1⟩

/-! ## The header of the datagram output -/

theorem fieldValue_uintBytes (x : Nat) : fieldValue (uintBytes x) = x % 4294967296 := by
  simp only [fieldValue, uintBytes, le32, decode32, Fin.ofNat]
  omega

theorem fieldValue_sizeBytes (T : Nat) :
    fieldValue ((sizeBytes T).take 4) = T % 4294967296 := by
  simp only [sizeBytes, List.take, fieldValue, decode32, Fin.ofNat]
  norm_num
  omega

theorem num_udp_datagrams_lt (T n : Nat) (h : num_udp_datagrams T = some n) :
    n < 4294967296 := by
  unfold num_udp_datagrams at h
  simp only at h
  split at h
  · injection h with h
    omega
  · cases h

theorem udpOutput_inv (N T : Nat) (mdb : List (List Sample)) (dgs : List Datagram)
    (h : udpOutput N T mdb = some dgs) :
    ∃ n p, num_udp_datagrams T = some n ∧ udpPayload mdb n N 0 = some p ∧
      dgs = udpHeader N T n ++ p := by
  unfold udpOutput at h
  split at h
  · cases h
  · rename_i n hn
    cases hp : udpPayload mdb n N 0 with
    | none => rw [hp] at h; cases h
    | some p =>
      rw [hp] at h
      injection h with h
      exact ⟨n, p, hn, hp, h.symm⟩

/-- Claim C6 as stated fails: one channel, `total_num_samps = 2 ^ 32`, buffers of
364 samples, every `recv` call giving 364 samples. The session completes and
the three header datagrams read back as 1, 0 and 16777216: the second one, the
first four of the eight bytes of the `size_t`, is 0 and not `2 ^ 32`. -/
theorem header_total_field_truncated :
    (udpSends (main "" "10.10.0.10" showBits noInfo 1 364 4294967296
        (List.replicate 11799361
          ⟨364, ErrorCode.ERROR_CODE_NONE, [List.replicate 364 zeroSample]⟩))).map
      (fun dgs => (dgs.take 3).map fieldValue) = some [1, 0, 16777216] ∧
    (0 : Nat) ≠ 4294967296 := by
  have hp : ¬ (("" : String) ≠ "") := by decide
  have hq : ("10.10.0.10" : String) ≠ "" := by decide
  have hn : num_udp_datagrams 4294967296 = some 16777216 := by decide
  obtain ⟨st, hmain, hN, hlen, _⟩ := main_uniform "" "10.10.0.10" showBits noInfo 1 364
    4294967296 364 (by norm_num) (le_refl _)
    (List.replicate 11799361 ⟨364, ErrorCode.ERROR_CODE_NONE, [List.replicate 364 zeroSample]⟩)
    (uniform_script _ _ _) (by rw [List.length_replicate])
  have hall : ∀ buf ∈ st.MultiDeviceBuffer, num_samps_per_datagram * 16777216 ≤ buf.length := by
    intro buf hbuf
    rw [hlen buf hbuf]
    show 256 * 16777216 ≤ (4294967296 + 364 - 1) / 364 * 364
    norm_num
  have hout := udpOutput_eq 1 4294967296 16777216 _ hn hN hall
  have hhead : (udpHeader 1 4294967296 16777216).map fieldValue = [1, 0, 16777216] := by decide
  rw [if_neg hp, if_pos hq, hout] at hmain
  refine ⟨?_, by norm_num⟩
  rw [hmain]
  simp only [SinkRun.ofOption, udpSends, Option.map_some']
  rw [(udpOutput_length 1 4294967296 16777216 _ _ hn hN hall hout).2, hhead]

/-- Claim C6 as amended (header of the datagram output). In every completed
session with udp output (the transport never returning more than
`samps_per_buff` samples per call): when the datagram output runs to its end,
its first three sends are 4-byte datagrams, followed by the payload, that read
back as the channel count modulo `2 ^ 32`, `total_num_samps` modulo `2 ^ 32`
and the datagram count `n` of the payload loop; so they are the channel count
and `total_num_samps` themselves when these are below `2 ^ 32`. For
`total_num_samps < 2 ^ 24` the output does run to its end and the third field
is `floor(total_num_samps / 256)`. -/
theorem header_fields_four_bytes ( filename_prefix udp_dst_addr : String)
    (showFloat : Word32 → String) (info : Nat → ChannelInfo) (N spb T : Nat)
    (script : List RecvResult)
    (haddr : udp_dst_addr ≠ "") (hwf : ∀ r ∈ script, r.num_rx_samps ≤ spb)
    (st : LoopState) (files : SinkRun FileOutput) (udp : SinkRun (List Datagram))
    (hdone : main filename_prefix udp_dst_addr showFloat info N spb T script
          = ProgramResult.done st files udp) :
    (∀ dgs, udp = SinkRun.wrote dgs →
      ∃ n p, num_udp_datagrams T = some n ∧
        udpPayload st.MultiDeviceBuffer n N 0 = some p ∧
        dgs = [uintBytes N, (sizeBytes T).take 4, uintBytes n] ++ p ∧
        (dgs.take 3).map List.length = [4, 4, 4] ∧
        (dgs.take 3).map fieldValue = [N % 4294967296, T % 4294967296, n] ∧
        (N < 4294967296 → T < 4294967296 → (dgs.take 3).map fieldValue = [N, T, n])) ∧
    (T < 16777216 →
      ∃ dgs, udp = SinkRun.wrote dgs ∧
        (dgs.take 3).map fieldValue = [N % 4294967296, T, T / 256]) := by
  obtain ⟨hshape, hall, _, hudp⟩ := main_done_inv filename_prefix udp_dst_addr showFloat info
    N spb T script hwf st files udp hdone
  rw [if_pos haddr] at hudp
  have hvals : ∀ n, num_udp_datagrams T = some n →
      ([uintBytes N, (sizeBytes T).take 4, uintBytes n].map fieldValue
        = [N % 4294967296, T % 4294967296, n]) := by
    intro n hn
    have hlt := num_udp_datagrams_lt T n hn
    simp only [List.map_cons, List.map_nil, fieldValue_uintBytes, fieldValue_sizeBytes,
      Nat.mod_eq_of_lt hlt]
  constructor
  · intro dgs hdgs
    rw [hdgs] at hudp
    cases hout : udpOutput N T st.MultiDeviceBuffer with
    | none => rw [hout] at hudp; cases hudp
    | some out =>
      rw [hout] at hudp
      simp only [SinkRun.ofOption] at hudp
      injection hudp with hudp
      subst hudp
      obtain ⟨n, p, hn, hp, hd⟩ := udpOutput_inv N T _ _ hout
      have htake : dgs.take 3 = [uintBytes N, (sizeBytes T).take 4, uintBytes n] := by
        rw [hd]
        exact List.take_left' rfl
      refine ⟨n, p, hn, hp, hd, ?_, ?_, ?_⟩
      · rw [htake]
        simp [uintBytes, le32, sizeBytes]
      · rw [htake]
        exact hvals n hn
      · intro h1 h2
        rw [htake, hvals n hn, Nat.mod_eq_of_lt h1, Nat.mod_eq_of_lt h2]
  · intro hT
    have hn := num_udp_datagrams_small T hT
    have hall2 : ∀ buf ∈ st.MultiDeviceBuffer,
        num_samps_per_datagram * (T / 256) ≤ buf.length := by
      intro buf hbuf
      have := hall buf hbuf
      show 256 * (T / 256) ≤ buf.length
      omega
    have hout := udpOutput_eq N T (T / 256) _ hn hshape.1 hall2
    rw [hout] at hudp
    refine ⟨_, hudp, ?_⟩
    have htake : (udpHeader N T (T / 256) ++ (List.range N).flatMap
        (fun c => channelPayloadOf (st.MultiDeviceBuffer.getD c []) (T / 256))).take 3
        = [uintBytes N, (sizeBytes T).take 4, uintBytes (T / 256)] :=
      List.take_left' rfl
    rw [htake, hvals _ hn, Nat.mod_eq_of_lt (by omega : T < 4294967296)]

set_option maxRecDepth 100000 in
/-- Instance of the amended claim C6: two channels, target 600, buffers of 364
samples, two `recv` calls of 364 samples. -/
theorem header_fields_four_bytes_witness :
    ∃ st files udp,
      (("10.10.0.10" ≠ "") ∧
       (∀ r ∈ List.replicate 2 (okRecv 2 (List.replicate 364 (smp 1 2))),
          r.num_rx_samps ≤ 364) ∧
       main "" "10.10.0.10" showBits noInfo 2 364 600
          (List.replicate 2 (okRecv 2 (List.replicate 364 (smp 1 2))))
         = ProgramResult.done st files udp) ∧
      ((∀ dgs, udp = SinkRun.wrote dgs →
        ∃ n p, num_udp_datagrams 600 = some n ∧
          udpPayload st.MultiDeviceBuffer n 2 0 = some p ∧
          dgs = [uintBytes 2, (sizeBytes 600).take 4, uintBytes n] ++ p ∧
          (dgs.take 3).map List.length = [4, 4, 4] ∧
          (dgs.take 3).map fieldValue = [2 % 4294967296, 600 % 4294967296, n] ∧
          (2 < 4294967296 → 600 < 4294967296 → (dgs.take 3).map fieldValue = [2, 600, n])) ∧
       (600 < 16777216 →
        ∃ dgs, udp = SinkRun.wrote dgs ∧
          (dgs.take 3).map fieldValue = [2 % 4294967296, 600, 600 / 256])) :=
  ⟨_, _, _, ⟨by decide, by decide, rfl⟩,
   header_fields_four_bytes "" "10.10.0.10" showBits noInfo 2 364 600
     (List.replicate 2 (okRecv 2 (List.replicate 364 (smp 1 2)))) (by decide) (by decide)
     _ _ _ rfl⟩

/-! ## The timeout exit in general -/

theorem recvLoop_timeout (T : Nat) (before : List RecvResult) (r : RecvResult)
    (rest : List RecvResult) (st : LoopState)
    (hbefore : ∀ x ∈ before, x.error_code = ErrorCode.ERROR_CODE_NONE)
    (hcount : st.num_acc_samps + deliveredCount before < T)
    (hr : r.error_code = ErrorCode.ERROR_CODE_TIMEOUT) :
    (recvLoop T (before ++ r :: rest) st).1 = LoopExit.brokeOnTimeout ∧
    (recvLoop T (before ++ r :: rest) st).2.recv_calls = st.recv_calls + before.length + 1 ∧
    (recvLoop T (before ++ r :: rest) st).2.num_acc_samps
      = st.num_acc_samps + deliveredCount before := by
  induction before generalizing st with
  | nil =>
    have h0 : st.num_acc_samps < T := by
      simp only [deliveredCount, List.map_nil, List.sum_nil] at hcount; omega
    have step : recvLoop T ([] ++ r :: rest) st
        = (LoopExit.brokeOnTimeout, receiveAndCopy r st) := by
      simp only [List.nil_append, recvLoop, h0, if_true, hr]
    rw [step]
    exact ⟨rfl, rfl, rfl⟩
  | cons x xs ih =>
    have hx : x.error_code = ErrorCode.ERROR_CODE_NONE := hbefore x (List.mem_cons_self _ _)
    have hd : deliveredCount (x :: xs) = x.num_rx_samps + deliveredCount xs := by
      simp [deliveredCount]
    rw [hd] at hcount ⊢
    have h0 : st.num_acc_samps < T := by omega
    have hne : ¬ x.error_code = ErrorCode.ERROR_CODE_TIMEOUT := by rw [hx]; decide
    have hnn : ¬ x.error_code ≠ ErrorCode.ERROR_CODE_NONE := by simp [hx]
    have e2 : (accumulate x (receiveAndCopy x st)).num_acc_samps
        = st.num_acc_samps + x.num_rx_samps := rfl
    have e3 : (accumulate x (receiveAndCopy x st)).recv_calls = st.recv_calls + 1 := rfl
    obtain ⟨t1, t2, t3⟩ := ih (accumulate x (receiveAndCopy x st))
      (fun y hy => hbefore y (List.mem_cons_of_mem _ hy)) (by rw [e2]; omega)
    have step : recvLoop T ((x :: xs) ++ r :: rest) st
        = recvLoop T (xs ++ r :: rest) (accumulate x (receiveAndCopy x st)) := by
      simp only [List.cons_append, recvLoop, h0, if_true, hne, hnn, if_false]
      rfl
    rw [step]
    refine ⟨t1, ?_, ?_⟩
    · rw [t2, e3, List.length_cons]; omega
    · rw [t3, e2]; omega

/-- The part of the timeout short-circuit that holds on the code: when a `recv`
call reports a timeout after calls without error whose counts sum to less than
`total_num_samps`, the program takes the timeout exit at that call, no sink
runs, `num_acc_samps` is the sum of the counts of the earlier calls, and every
accumulator holds `samps_per_buff` samples per call issued. -/
theorem timeout_exit_general ( filename_prefix udp_dst_addr : String)
    (showFloat : Word32 → String) (info : Nat → ChannelInfo) (N spb T : Nat)
    (before : List RecvResult) (r : RecvResult) (rest : List RecvResult)
    (hbefore : ∀ x ∈ before, x.error_code = ErrorCode.ERROR_CODE_NONE)
    (hcount : deliveredCount before < T)
    (hr : r.error_code = ErrorCode.ERROR_CODE_TIMEOUT) :
    ∃ st, main filename_prefix udp_dst_addr showFloat info N spb T (before ++ r :: rest)
        = ProgramResult.receiveTimeout st ∧
      st.recv_calls = before.length + 1 ∧
      st.num_acc_samps = deliveredCount before ∧
      st.MultiDeviceBuffer.length = N ∧
      ∀ a ∈ st.MultiDeviceBuffer, a.length = (before.length + 1) * spb := by
  obtain ⟨t1, t2, t3⟩ := recvLoop_timeout T before r rest (initState N spb) hbefore
    (by show 0 + deliveredCount before < T; omega) hr
  have hshape := shape_recvLoop N spb T (before ++ r :: rest) (initState N spb)
    (shape_initState N spb)
  have e2 : (recvLoop T (before ++ r :: rest) (initState N spb)).2.recv_calls
      = before.length + 1 := by
    rw [t2]; show 0 + before.length + 1 = _; omega
  have e3 : (recvLoop T (before ++ r :: rest) (initState N spb)).2.num_acc_samps
      = deliveredCount before := by
    rw [t3]; show 0 + deliveredCount before = _; omega
  refine ⟨(recvLoop T (before ++ r :: rest) (initState N spb)).2, ?_, e2, e3, hshape.1, ?_⟩
  · have hexit : receiveTimeoutExit T (recvLoop T (before ++ r :: rest) (initState N spb)).2
        = true := by
      simp only [receiveTimeoutExit, decide_eq_true_eq, e3]
      exact hcount
    unfold main runLoop
    generalize recvLoop T (before ++ r :: rest) (initState N spb) = p at t1 hexit
    obtain ⟨ex, st⟩ := p
    simp only at t1 hexit
    subst t1
    simp only [hexit]
    simp
  · intro a ha
    rw [hshape.2.2.2 a ha, e2]

end MultiUsrp
